import Mathlib

/-!
Shallow embedding of `minimal-examples/secure-streams/minimal-secure-streams-policy2c/
minimal-secure-streams.c` (the lws policy-JSON-to-C-structs emitter), together with
proofs about the claims of the specification.

The policy object graph produced by the external parser is modelled as read-only data:
pointer identities of shared objects (retry/backoff tables, trust stores, x.509 certs)
become `Nat` surrogate keys resolved through total maps carried by the graph.  The
emitter's printf stream is modelled as a list of emitted items (`EmitItem`), at the
granularity of one item per completed C declaration fragment.
-/

set_option autoImplicit false

namespace Policy2c

/-! ## Symbol synthesizer: `purify_csymbol` (source lines 49-69) -/

/-- The character class the C code keeps unchanged:
`(*in >= 'a' && *in <= 'z') || (*in >= 'A' && *in <= 'Z') || (*in >= '0' && *in <= '9')`. -/
def isAlnum (c : Char) : Bool :=
  decide ((Char.ofNat 97 ≤ c ∧ c ≤ Char.ofNat 122) ∨
          (Char.ofNat 65 ≤ c ∧ c ≤ Char.ofNat 90) ∨
          (Char.ofNat 48 ≤ c ∧ c ≤ Char.ofNat 57))

/-- The body of the `while (*in)` loop: each kept character is copied, any other
character becomes an underscore. -/
def purifyLoop : List Char → List Char
  | [] => []
  | c :: rest => (if isAlnum c then c else Char.ofNat 95) :: purifyLoop rest

/-- `purify_csymbol` as a pure map on the name (the successful path, after the
`assert(strlen(in) < templen)` capacity check has passed). -/
def purify_csymbol (s : String) : String :=
  String.mk (purifyLoop s.data)

/-- The whole call including the capacity assertion: `none` models the fatal
`assert(strlen(in) < templen)` failure, `some` the successful purification. -/
def purifyRun (s : String) (templen : Nat) : Option String :=
  if s.length < templen then some (purify_csymbol s) else none

/-- Number of bytes the loop writes into the destination buffer: one byte per
input character plus the terminating NUL. -/
def purifyWrites (s : String) : Nat :=
  s.length + 1

/-! ## Data model: read-only views of the externally parsed policy graph -/

/-- `lws_retry_bo_t`: backoff table plus scalar parameters. -/
structure lws_retry_bo where
  retry_ms_table : List Nat
  conceal_count : Nat
  secs_since_valid_ping : Nat
  secs_since_valid_hangup : Nat
  jitter_percent : Nat
  deriving Repr, DecidableEq

/-- `lws_ss_x509_t`: host-name label plus captured DER bytes. -/
structure lws_ss_x509 where
  vhost_name : String
  ca_der : List Nat
  deriving Repr, DecidableEq

/-- `lws_ss_trust_store_t`: named ordered collection of certificate identities. -/
structure lws_ss_trust_store where
  name : String
  ssx509 : List Nat
  deriving Repr, DecidableEq

/-- One metadata name/value record of a policy node's metadata list. -/
structure lws_ss_metadata where
  name : String
  value : Option String
  deriving Repr, DecidableEq

/-- `lws_ss_auth_t`: one auth record. -/
structure lws_ss_auth where
  name : String
  streamtype : String
  blob_index : Int
  deriving Repr, DecidableEq

/-- The http member of the protocol union (fields read in the H1/H2/WS branch). -/
structure HttpPol where
  method : Option String
  url : Option String
  multipart_name : Option String
  multipart_filename : Option String
  multipart_content_type : Option String
  auth_preamble : Option String
  blob_header : List (Option String)
  ws_subprotocol : Option String
  ws_binary : Nat
  resp_expect : Nat
  fail_redirect : Nat
  deriving Repr, DecidableEq

/-- The mqtt member of the protocol union (fields read in the MQTT branch). -/
structure MqttPol where
  topic : Option String
  subscribe : Option String
  will_topic : Option String
  will_message : Option String
  keep_alive : Nat
  qos : Nat
  clean_start : Nat
  will_qos : Nat
  will_retain : Nat
  deriving Repr, DecidableEq

/-- Protocol-kind tag values of the `lws_ss_protocols` enum. -/
def LWSSSP_H1 : Nat := 0

def LWSSSP_H2 : Nat := 1

def LWSSSP_WS : Nat := 2

def LWSSSP_MQTT : Nat := 3

/-- One policy node (`lws_ss_policy_t`).  Shared objects are referenced by
surrogate identity keys (`Option Nat`); `auth` carries `pol->auth->name`. -/
structure lws_ss_policy where
  streamtype : String
  endpoint : Option String
  rideshare_streamtype : Option String
  payload_fmt : Option String
  socks5_proxy : Option String
  auth : Option String
  metadata : List lws_ss_metadata
  protocol : Nat
  http : HttpPol
  mqtt : MqttPol
  retry_bo : Option Nat
  trust_store : Option Nat
  timeout_ms : Nat
  flags : Nat
  port : Nat
  metadata_count : Nat
  client_cert : Nat
  deriving Repr, DecidableEq

/-- The whole parsed graph: the policy list, the auth list, and the three
identity-resolution maps for shared objects. -/
structure PolicyGraph where
  rbo_objs : Nat → lws_retry_bo
  store_objs : Nat → lws_ss_trust_store
  cert_objs : Nat → lws_ss_x509
  policies : List lws_ss_policy
  auths : List lws_ss_auth

/-! ## Identity-interning tables (`struct aggstr`, lines 35-45, 205-254, 260-279) -/

/-- One interning-table entry: original object identity plus emission handle. -/
structure aggstr where
  orig : Nat
  offset : Nat
  deriving Repr, DecidableEq

/-- The `while (a) { if (a->orig == id) break; a = a->next; }` search. -/
def aggLookup : List aggstr → Nat → Option aggstr
  | [], _ => none
  | a :: rest, id => if a.orig = id then some a else aggLookup rest id

/-- Lookup-or-insert on the retry/backoff map: result is
(new map, new unique counter, handle offset, whether a new entry was created).
A new entry is pushed to the front and takes the current counter as handle. -/
def internRbo (m : List aggstr) (unique_rbo : Nat) (id : Nat) :
    List aggstr × Nat × Nat × Bool :=
  match aggLookup m id with
  | some a => (m, unique_rbo, a.offset, false)
  | none => (⟨id, unique_rbo⟩ :: m, unique_rbo + 1, unique_rbo, true)

/-- Lookup-or-insert on a presence-only map (trust stores and certs use
`offset = 0`, "don't care, just track seen"). -/
def internSeen (m : List aggstr) (id : Nat) : List aggstr × Bool :=
  match aggLookup m id with
  | some _ => (m, false)
  | none => (⟨id, 0⟩ :: m, true)

/-! ## Emitted output model -/

/-- Byte sizes of the C structs involved (`sizeof` values depend on the host
ABI, so they are parameters of the model; `sizeof(uint32_t)` is fixed at 4). -/
structure Sizes where
  metadata_t : Nat
  retry_bo_t : Nat
  x509_t : Nat
  trust_store_t : Nat
  policy_t : Nat
  voidp : Nat
  deriving Repr, DecidableEq

/-- The fields printed for one top-level `lws_ss_policy_t` struct, at the
granularity of the printf calls of pass 2 (lines 405-589). -/
structure PolicyEmission where
  symbol : String
  nextRef : Option String
  streamtype : String
  endpoint : Option String
  rideshare_streamtype : Option String
  payload_fmt : Option String
  socks5_proxy : Option String
  authRef : Option String
  metadataRef : Option String
  httpU : Option HttpPol
  wsInner : Bool
  mqttU : Option MqttPol
  rboRef : Option Nat
  timeout_ms : Nat
  flags : Nat
  port : Nat
  metadata_count : Nat
  protocol : Nat
  client_cert : Nat
  trustRef : Option String
  deriving Repr, DecidableEq

/-- One completed declaration (or trailing comment) printed to stdout. -/
inductive EmitItem where
  | mdRecord (symbol : String) (nextRef : Option String) (name : String)
      (value : Option String) (length : Nat)
  | rboArray (offset : Nat) (table : List Nat)
  | rboStruct (offset : Nat) (bo : lws_retry_bo)
  | certDer (symbol : String) (der : List Nat)
  | certStruct (symbol : String) (vhost_name : String) (derRef : String) (derLen : Nat)
  | trustStruct (symbol : String) (name : String) (refs : List String)
  | authRecord (symbol : String) (nextRef : Option String) (auth : lws_ss_auth)
  | policyStruct (p : PolicyEmission)
  | defaultEntryAlias (symbol : String)
  | footprintReport (est : Nat) (ptr : Nat)
  deriving Repr, DecidableEq

/-- The footprint contribution of one emitted item: the amounts the C adds to
`est` at the corresponding emission points (auth records, the alias and the
trailing comment are not counted by the C either). -/
def entitySize (sz : Sizes) : EmitItem → Nat
  | .mdRecord _ _ _ _ _ => sz.metadata_t
  | .rboArray _ table => 4 * table.length
  | .rboStruct _ _ => sz.retry_bo_t
  | .certDer _ der => der.length
  | .certStruct _ _ _ _ => sz.x509_t
  | .trustStruct _ _ _ => sz.trust_store_t
  | .authRecord _ _ _ => 0
  | .policyStruct _ => sz.policy_t
  | .defaultEntryAlias _ => 0
  | .footprintReport _ _ => 0

/-- Footprint of a whole output list. -/
def estOf (sz : Sizes) (out : List EmitItem) : Nat :=
  (out.map (entitySize sz)).sum

/-- The static `last_offset` of the aggregated-string machinery: declared at
line 45 and added to `est` at line 596, but never incremented anywhere. -/
def last_offset : Nat := 0

/-! ## Symbol builders -/

/-- `_md_<purified streamtype>_<purified md name>` (lines 173-177). -/
def mdSymbol (streamtype mdname : String) : String :=
  "_md_" ++ purify_csymbol streamtype ++ "_" ++ purify_csymbol mdname

/-- `_ss_der_<purified vhost name>` (line 310). -/
def derSymbol (vhost : String) : String :=
  "_ss_der_" ++ purify_csymbol vhost

/-- `_ss_x509_<purified vhost name>`: the declared certificate struct symbol
(lines 323-325). -/
def certStructName (vhost : String) : String :=
  "_ss_x509_" ++ purify_csymbol vhost

/-- `&_ss_x509_<raw vhost name>`: the reference emitted inside the trust-store
struct (lines 346-348), built from the unpurified host name. -/
def certRefName (vhost : String) : String :=
  "_ss_x509_" ++ vhost

/-- `_ss_ts_<purified store name>` (lines 339-341). -/
def tsSymbol (storeName : String) : String :=
  "_ss_ts_" ++ purify_csymbol storeName

/-- `_ssau_<purified auth name>` (lines 370-371). -/
def ssauSymbol (authName : String) : String :=
  "_ssau_" ++ purify_csymbol authName

/-- `_ssp_<purified streamtype>` (lines 409-410). -/
def sspSymbol (streamtype : String) : String :=
  "_ssp_" ++ purify_csymbol streamtype

/-! ## Pass 1: metadata chains, retry tables, trust stores, certificates -/

/-- The metadata emission loop (lines 162-199): records are emitted in source
order, each record's `next` is the previously emitted symbol (`prev`), and
`.length` is the running index. -/
def emitMetadataChain (streamtype : String) :
    List lws_ss_metadata → Option String → Nat → List EmitItem
  | [], _, _ => []
  | md :: rest, prev, idx =>
    EmitItem.mdRecord (mdSymbol streamtype md.name) prev md.name md.value idx ::
      emitMetadataChain streamtype rest (some (mdSymbol streamtype md.name)) (idx + 1)

/-- The trust-store reference loop, `for (n = count - 1; n >= 0; n--)`
(lines 346-348): emits the certs of the store last-first, building each
reference from the raw `vhost_name`. -/
def trustRefs (g : PolicyGraph) : List Nat → List String
  | [] => []
  | cid :: rest => trustRefs g rest ++ [certRefName (g.cert_objs cid).vhost_name]

/-- Emitter state threaded through pass 1. -/
structure EmitState where
  rbomap : List aggstr
  trustmap : List aggstr
  certmap : List aggstr
  unique_rbo : Nat
  est : Nat
  out : List EmitItem
  deriving Repr

def initState : EmitState :=
  { rbomap := [], trustmap := [], certmap := [], unique_rbo := 0, est := 0, out := [] }

/-- Lines 205-254: intern this node's retry/backoff object; on first sight emit
the millisecond table array and the `lws_retry_bo_t` struct. -/
def pass1Rbo (sz : Sizes) (g : PolicyGraph) (st : EmitState) (pol : lws_ss_policy) :
    EmitState :=
  match pol.retry_bo with
  | none => st
  | some id =>
    match aggLookup st.rbomap id with
    | some _ => st
    | none =>
      let bo := g.rbo_objs id
      { st with
        rbomap := ⟨id, st.unique_rbo⟩ :: st.rbomap
        unique_rbo := st.unique_rbo + 1
        est := st.est + 4 * bo.retry_ms_table.length + sz.retry_bo_t
        out := st.out ++ [EmitItem.rboArray st.unique_rbo bo.retry_ms_table,
                          EmitItem.rboStruct st.unique_rbo bo] }

/-- Lines 286-336: for one certificate identity of a store, intern it and on
first sight emit its DER byte array and the `lws_ss_x509_t` struct. -/
def pass1Cert (sz : Sizes) (g : PolicyGraph) (st : EmitState) (cid : Nat) : EmitState :=
  match aggLookup st.certmap cid with
  | some _ => st
  | none =>
    let x := g.cert_objs cid
    { st with
      certmap := ⟨cid, 0⟩ :: st.certmap
      est := st.est + x.ca_der.length + sz.x509_t
      out := st.out ++ [EmitItem.certDer (derSymbol x.vhost_name) x.ca_der,
                        EmitItem.certStruct (certStructName x.vhost_name) x.vhost_name
                          (derSymbol x.vhost_name) x.ca_der.length] }

/-- Lines 260-355: intern this node's trust store; on first sight walk its
certificate list in store order, then emit the trust-store struct whose
reference array is built by the count-down loop. -/
def pass1Trust (sz : Sizes) (g : PolicyGraph) (st : EmitState) (pol : lws_ss_policy) :
    EmitState :=
  match pol.trust_store with
  | none => st
  | some sid =>
    match aggLookup st.trustmap sid with
    | some _ => st
    | none =>
      let store := g.store_objs sid
      let st1 := { st with trustmap := ⟨sid, 0⟩ :: st.trustmap }
      let st2 := store.ssx509.foldl (pass1Cert sz g) st1
      { st2 with
        est := st2.est + sz.trust_store_t
        out := st2.out ++ [EmitItem.trustStruct (tsSymbol store.name) store.name
                             (trustRefs g store.ssx509)] }

/-- One iteration of the pass-1 `while (pol)` loop (lines 153-358). -/
def pass1Policy (sz : Sizes) (g : PolicyGraph) (st : EmitState) (pol : lws_ss_policy) :
    EmitState :=
  let st0 := { st with
    est := st.est + sz.metadata_t * pol.metadata.length
    out := st.out ++ emitMetadataChain pol.streamtype pol.metadata none 0 }
  pass1Trust sz g (pass1Rbo sz g st0 pol) pol

/-- Pass 1 over the whole policy list. -/
def pass1 (sz : Sizes) (g : PolicyGraph) : EmitState :=
  g.policies.foldl (pass1Policy sz g) initState

/-! ## Interlude: the auth list (lines 364-393) -/

/-- The auth emission loop: source order, `next` = previously emitted symbol. -/
def emitAuthChain : List lws_ss_auth → Option String → List EmitItem
  | [], _ => []
  | au :: rest, prev =>
    EmitItem.authRecord (ssauSymbol au.name) prev au ::
      emitAuthChain rest (some (ssauSymbol au.name))

/-! ## Pass 2: the top-level streamtype structs (lines 400-599) -/

/-- The `last` computation of lines 434-440:
`while (nv) { last = nv; nv = nv->next; }`. -/
def lastOfAux {α : Type} : Option α → List α → Option α
  | acc, [] => acc
  | _, x :: rest => lastOfAux (some x) rest

def lastOf {α : Type} (l : List α) : Option α :=
  lastOfAux none l

/-- The protocol-kind switch (lines 448-541): `some` carries what the matched
branch prints (the http union, whether the inner ws sub-struct is emitted, the
mqtt union); `none` is the `default:` branch, `goto bail`. -/
def protoEmit (pol : lws_ss_policy) :
    Option (Option HttpPol × Bool × Option MqttPol) :=
  if pol.protocol = LWSSSP_H1 ∨ pol.protocol = LWSSSP_H2 ∨ pol.protocol = LWSSSP_WS then
    some (some pol.http, pol.protocol = LWSSSP_WS, none)
  else if pol.protocol = LWSSSP_MQTT then
    some (none, false, some pol.mqtt)
  else
    none

/-- Lines 548-560: re-resolve the interned retry/backoff handle.  Outer `none`
is the `if (!a) goto bail;` failure; `some r` carries the optional reference. -/
def rboRefResolve (rbomap : List aggstr) : Option Nat → Option (Option Nat)
  | none => some none
  | some id =>
    match aggLookup rbomap id with
    | none => none
    | some a => some (some a.offset)

/-- State threaded through the pass-2 loop. -/
structure Pass2State where
  est : Nat
  out : List EmitItem
  prev : Option String
  lastSym : Option String
  deriving Repr

/-- One iteration of the pass-2 `while (pol)` loop (lines 405-589); `none`
models `goto bail` (unknown protocol kind, or unresolved retry handle). -/
def pass2Policy (sz : Sizes) (g : PolicyGraph) (rbomap : List aggstr)
    (st : Pass2State) (pol : lws_ss_policy) : Option Pass2State :=
  let curr := sspSymbol pol.streamtype
  match protoEmit pol with
  | none => none
  | some (hu, ws, mu) =>
    match rboRefResolve rbomap pol.retry_bo with
    | none => none
    | some rref =>
      some { est := st.est + sz.policy_t
             out := st.out ++ [EmitItem.policyStruct {
               symbol := curr
               nextRef := st.prev
               streamtype := pol.streamtype
               endpoint := pol.endpoint
               rideshare_streamtype := pol.rideshare_streamtype
               payload_fmt := pol.payload_fmt
               socks5_proxy := pol.socks5_proxy
               authRef := pol.auth.map ssauSymbol
               metadataRef := (lastOf pol.metadata).map
                 (fun last => mdSymbol pol.streamtype last.name)
               httpU := hu
               wsInner := ws
               mqttU := mu
               rboRef := rref
               timeout_ms := pol.timeout_ms
               flags := pol.flags
               port := pol.port
               metadata_count := pol.metadata_count
               protocol := pol.protocol
               client_cert := pol.client_cert
               trustRef := pol.trust_store.map
                 (fun sid => tsSymbol (g.store_objs sid).name) }]
             prev := some curr
             lastSym := some curr }

/-- The pass-2 loop; the Bool records whether the loop completed without
`goto bail` (on bail the output printed so far stands). -/
def pass2Go (sz : Sizes) (g : PolicyGraph) (rbomap : List aggstr) :
    Pass2State → List lws_ss_policy → Pass2State × Bool
  | st, [] => (st, true)
  | st, pol :: rest =>
    match pass2Policy sz g rbomap st pol with
    | none => (st, false)
    | some st1 => pass2Go sz g rbomap st1 rest

/-- The whole emitter run after parsing: pass 1, the auth interlude, pass 2,
the default-entry alias and the footprint report.  Returns the emitted items
and the process exit code (`bad` starts at 1 and is cleared only after the
report, line 602). -/
def runEmitter (sz : Sizes) (g : PolicyGraph) : List EmitItem × Nat :=
  let s1 := pass1 sz g
  let st0 : Pass2State :=
    { est := s1.est
      out := s1.out ++ emitAuthChain g.auths none
      prev := none
      lastSym := none }
  match pass2Go sz g s1.rbomap st0 g.policies with
  | (st, false) => (st.out, 1)
  | (st, true) =>
    let aliasItems := match st.lastSym with
      | some s => [EmitItem.defaultEntryAlias s]
      | none => []
    (st.out ++ aliasItems ++
       [EmitItem.footprintReport (st.est + last_offset) sz.voidp], 0)

/-! ## Projections of the output stream used by the claims -/

/-- The `(offset, struct)` pairs of all emitted `lws_retry_bo_t` structs. -/
def rboStructEmits (out : List EmitItem) : List (Nat × lws_retry_bo) :=
  out.filterMap fun i => match i with
    | .rboStruct o bo => some (o, bo)
    | _ => none

/-- The `(offset, table)` pairs of all emitted backoff millisecond arrays. -/
def rboArrayEmits (out : List EmitItem) : List (Nat × List Nat) :=
  out.filterMap fun i => match i with
    | .rboArray o t => some (o, t)
    | _ => none

/-- All emitted top-level policy structs, in emission order. -/
def policyEmits (out : List EmitItem) : List PolicyEmission :=
  out.filterMap fun i => match i with
    | .policyStruct p => some p
    | _ => none

/-- The symbols of all emitted auth records. -/
def authSymbols (out : List EmitItem) : List String :=
  out.filterMap fun i => match i with
    | .authRecord s _ _ => some s
    | _ => none

/-- All emitted footprint reports. -/
def reportsOf (out : List EmitItem) : List (Nat × Nat) :=
  out.filterMap fun i => match i with
    | .footprintReport e p => some (e, p)
    | _ => none

/-- The handle offset recorded for an identity, defaulting to 0 when absent. -/
def rboOffsetOf (m : List aggstr) (id : Nat) : Nat :=
  match aggLookup m id with
  | some a => a.offset
  | none => 0

/-- The recognized protocol-kind tags of the switch at lines 448-541. -/
def knownProtocol (p : Nat) : Prop :=
  p = LWSSSP_H1 ∨ p = LWSSSP_H2 ∨ p = LWSSSP_WS ∨ p = LWSSSP_MQTT

instance (p : Nat) : Decidable (knownProtocol p) := by
  unfold knownProtocol
  infer_instance

/-! ## Lemmas about the symbol synthesizer -/

/-- The items appended by the certificate loop of one freshly seen trust store,
threading the cert interning map. -/
def certDelta (sz : Sizes) (g : PolicyGraph) : List aggstr → List Nat → List EmitItem
  | _, [] => []
  | cm, cid :: rest =>
    match aggLookup cm cid with
    | some _ => certDelta sz g cm rest
    | none =>
      EmitItem.certDer (derSymbol (g.cert_objs cid).vhost_name) (g.cert_objs cid).ca_der ::
      EmitItem.certStruct (certStructName (g.cert_objs cid).vhost_name)
        (g.cert_objs cid).vhost_name (derSymbol (g.cert_objs cid).vhost_name)
        (g.cert_objs cid).ca_der.length ::
      certDelta sz g (⟨cid, 0⟩ :: cm) rest

/-- The items appended for one policy node's retry/backoff table. -/
def rboDelta (g : PolicyGraph) (rbomap : List aggstr) (u : Nat) (pol : lws_ss_policy) :
    List EmitItem :=
  match pol.retry_bo with
  | none => []
  | some id =>
    match aggLookup rbomap id with
    | some _ => []
    | none => [EmitItem.rboArray u (g.rbo_objs id).retry_ms_table,
               EmitItem.rboStruct u (g.rbo_objs id)]

/-- The items appended for one policy node's trust store. -/
def trustDelta (sz : Sizes) (g : PolicyGraph) (trustmap certmap : List aggstr)
    (pol : lws_ss_policy) : List EmitItem :=
  match pol.trust_store with
  | none => []
  | some sid =>
    match aggLookup trustmap sid with
    | some _ => []
    | none =>
      certDelta sz g certmap (g.store_objs sid).ssx509 ++
        [EmitItem.trustStruct (tsSymbol (g.store_objs sid).name) (g.store_objs sid).name
           (trustRefs g (g.store_objs sid).ssx509)]

def hp0 : HttpPol := ⟨none, none, none, none, none, none, [], none, 0, 0, 0⟩

def mq0 : MqttPol := ⟨none, none, none, none, 0, 0, 0, 0, 0⟩

def basePol : lws_ss_policy :=
  { streamtype := "s1", endpoint := none, rideshare_streamtype := none,
    payload_fmt := none, socks5_proxy := none, auth := none, metadata := [],
    protocol := LWSSSP_H1, http := hp0, mqtt := mq0, retry_bo := none,
    trust_store := none, timeout_ms := 0, flags := 0, port := 0,
    metadata_count := 0, client_cert := 0 }

def bo1 : lws_retry_bo := ⟨[1000, 2000, 3000], 4, 5, 6, 7⟩

def store1 : lws_ss_trust_store := ⟨"sta", [10, 11]⟩

def sampleSizes : Sizes := ⟨16, 24, 32, 40, 200, 8⟩

def mkGraph (pols : List lws_ss_policy) (auths : List lws_ss_auth) : PolicyGraph :=
  { rbo_objs := fun _ => bo1
    store_objs := fun _ => store1
    cert_objs := fun c => if c = 10 then ⟨"ca1", [1, 2]⟩ else ⟨"ca2", [3]⟩
    policies := pols
    auths := auths }

def trustPol : lws_ss_policy := { basePol with trust_store := some 3 }

def gTrust : PolicyGraph := mkGraph [trustPol] []

/-- How one pass-1 policy step updates the retry/backoff map and counter. -/
def rboMapStep (m : List aggstr) (u : Nat) : Option Nat → List aggstr × Nat
  | none => (m, u)
  | some id =>
    match aggLookup m id with
    | some _ => (m, u)
    | none => (⟨id, u⟩ :: m, u + 1)

/-- The policy emission produced for one node on the success path, as a
function of the running `prev` symbol and the pass-1 retry map. -/
def pass2Emission (g : PolicyGraph) (rbomap : List aggstr) (prev : Option String)
    (pol : lws_ss_policy) : PolicyEmission :=
  { symbol := sspSymbol pol.streamtype
    nextRef := prev
    streamtype := pol.streamtype
    endpoint := pol.endpoint
    rideshare_streamtype := pol.rideshare_streamtype
    payload_fmt := pol.payload_fmt
    socks5_proxy := pol.socks5_proxy
    authRef := pol.auth.map ssauSymbol
    metadataRef := (lastOf pol.metadata).map
      (fun last => mdSymbol pol.streamtype last.name)
    httpU := ((protoEmit pol).getD (none, false, none)).1
    wsInner := ((protoEmit pol).getD (none, false, none)).2.1
    mqttU := ((protoEmit pol).getD (none, false, none)).2.2
    rboRef := (rboRefResolve rbomap pol.retry_bo).getD none
    timeout_ms := pol.timeout_ms
    flags := pol.flags
    port := pol.port
    metadata_count := pol.metadata_count
    protocol := pol.protocol
    client_cert := pol.client_cert
    trustRef := pol.trust_store.map (fun sid => tsSymbol (g.store_objs sid).name) }

/-- The `prev`/`lastpol` symbol after a run of successful pass-2 iterations. -/
def pass2SymAfter (p : Option String) : List lws_ss_policy → Option String
  | [] => p
  | q :: rest => pass2SymAfter (some (sspSymbol q.streamtype)) rest

/-- The policy emissions of a run of successful pass-2 iterations, threading
the `prev` symbol. -/
def pass2Emissions (g : PolicyGraph) (rbomap : List aggstr) :
    Option String → List lws_ss_policy → List PolicyEmission
  | _, [] => []
  | prev, p :: rest =>
    pass2Emission g rbomap prev p ::
      pass2Emissions g rbomap (some (sspSymbol p.streamtype)) rest

/-- `m2` preserves every association of `m`. -/
def MapExt (m m2 : List aggstr) : Prop :=
  ∀ id a, aggLookup m id = some a → aggLookup m2 id = some a

/-- Invariant: each entry of the retry interning map has a matching emitted
`lws_retry_bo_t` struct in the output. -/
def RboEmitted (g : PolicyGraph) (st : EmitState) : Prop :=
  ∀ e ∈ st.rbomap, EmitItem.rboStruct e.offset (g.rbo_objs e.orig) ∈ st.out

/-- The pass-2 initial state: footprint and output carried over from pass 1
and the auth interlude, empty `prev`, no last node yet. -/
def pass2Init (sz : Sizes) (g : PolicyGraph) : Pass2State :=
  { est := (pass1 sz g).est
    out := (pass1 sz g).out ++ emitAuthChain g.auths none
    prev := none
    lastSym := none }

def pRbo : lws_ss_policy := { basePol with retry_bo := some 7 }

def gRbo : PolicyGraph := mkGraph [pRbo] []

def stP2 : Pass2State := { est := 0, out := [], prev := none, lastSym := none }

def badPol : lws_ss_policy := { basePol with streamtype := "s9", protocol := 9 }

def gBad : PolicyGraph := mkGraph [basePol, badPol] []

def pRbo2 : lws_ss_policy := { basePol with streamtype := "s2", retry_bo := some 7 }

def gDedup : PolicyGraph := mkGraph [pRbo, pRbo2] []

def pAuth : lws_ss_policy := { basePol with auth := some "X" }

def gAuth : PolicyGraph := mkGraph [pAuth] []

/-- The (symbol, next-reference) pairs of the emitted metadata records. -/
def mdLinks (out : List EmitItem) : List (String × Option String) :=
  out.filterMap fun i => match i with
    | .mdRecord s n _ _ _ => some (s, n)
    | _ => none

/-- The chain shape produced by "each record's `next` is the previously
emitted symbol": records in emission order, first record pointing at `prev`. -/
def backChain : Option String → List String → List (String × Option String)
  | _, [] => []
  | prev, s :: rest => (s, prev) :: backChain (some s) rest

/-- First-match lookup of a record's `next` reference by symbol. -/
def lookupNext : List (String × Option String) → String → Option (Option String)
  | [], _ => none
  | (s, n) :: rest, q => if s = q then some n else lookupNext rest q

/-- Following `next` references from a start symbol, collecting the symbols
visited (fuelled by the chain length). -/
def walkBack (c : List (String × Option String)) : Nat → Option String → List String
  | 0, _ => []
  | _ + 1, none => []
  | fuel + 1, some s =>
    match lookupNext c s with
    | none => []
    | some nxt => s :: walkBack c fuel nxt

/-- The `prev` value after the chain has consumed `l`. -/
def lastPrev (p : Option String) (l : List String) : Option String :=
  match l.getLast? with
  | some x => some x
  | none => p

def mds1 : List lws_ss_metadata := [⟨"m0", none⟩, ⟨"m1", some "v"⟩]

def pMd : lws_ss_policy := { basePol with streamtype := "s", metadata := mds1 }

theorem purifyLoop_eq_map (l : List Char) :
    purifyLoop l = l.map (fun c => if isAlnum c then c else Char.ofNat 95) := by
  induction l with
  | nil => rfl
  | cons c t ih => simp [purifyLoop, ih]

theorem purifyLoop_length (l : List Char) : (purifyLoop l).length = l.length := by
  rw [purifyLoop_eq_map, List.length_map]

theorem purify_csymbol_length (s : String) :
    (purify_csymbol s).length = s.length := by
  show (purifyLoop s.data).length = s.data.length
  exact purifyLoop_length s.data

theorem purifyLoop_fix_iff (l : List Char) :
    purifyLoop l = l ↔ ∀ c ∈ l, isAlnum c = true ∨ c = Char.ofNat 95 := by
  induction l with
  | nil => simp [purifyLoop]
  | cons c t ih =>
    simp only [purifyLoop, List.cons.injEq, List.mem_cons, forall_eq_or_imp]
    constructor
    · rintro ⟨h1, h2⟩
      refine ⟨?_, ih.mp h2⟩
      by_cases hc : isAlnum c
      · exact Or.inl hc
      · rw [if_neg hc] at h1
        exact Or.inr h1.symm
    · rintro ⟨h1, h2⟩
      refine ⟨?_, ih.mpr h2⟩
      rcases h1 with h | h
      · rw [if_pos h]
      · subst h
        by_cases hc : isAlnum (Char.ofNat 95) <;> simp [hc]

/-- C5: for every input name and capacity, `purify_csymbol` writes exactly
`strlen(in) + 1` bytes, which fit the declared capacity whenever the call
succeeds; a name whose length equals or exceeds the capacity makes
`assert(strlen(in) < templen)` fail (modelled as `none`), a fatal condition
rather than silent truncation. -/
theorem purify_never_overflows (s : String) (templen : Nat) (out : String)
    (hsome : purifyRun s templen = some out) :
    (purifyWrites s ≤ templen ∧ out.length + 1 ≤ templen) ∧
    (∀ t : String, templen ≤ t.length → purifyRun t templen = none) := by
  constructor
  · unfold purifyRun at hsome
    split at hsome
    · rename_i hlt
      cases hsome
      rw [purifyWrites, purify_csymbol_length]
      omega
    · exact absurd hsome (by simp)
  · intro t hge
    unfold purifyRun
    rw [if_neg (by omega)]

theorem purify_never_overflows_witness :
    (purifyWrites "abc" ≤ 4 ∧ (purify_csymbol "abc").length + 1 ≤ 4) ∧
    (∀ t : String, 4 ≤ t.length → purifyRun t 4 = none) :=
  purify_never_overflows "abc" 4 (purify_csymbol "abc") rfl

/-- C6: `purify_csymbol` maps every character in `[A-Za-z0-9]` to itself and
every other character to an underscore, is deterministic (equal inputs give
equal outputs), and in particular sends `"ab-c_1"` to `"ab_c_1"`. -/
theorem purify_charwise_deterministic (u s t : String) (hst : s = t) :
    purify_csymbol "ab-c_1" = "ab_c_1" ∧
    (purify_csymbol u).data =
      u.data.map (fun c => if isAlnum c then c else Char.ofNat 95) ∧
    purify_csymbol s = purify_csymbol t := by
  refine ⟨by decide, purifyLoop_eq_map u.data, by rw [hst]⟩

theorem purify_charwise_deterministic_witness :
    purify_csymbol "ab-c_1" = "ab_c_1" ∧
    (purify_csymbol "a.b").data =
      "a.b".data.map (fun c => if isAlnum c then c else Char.ofNat 95) ∧
    purify_csymbol "x1" = purify_csymbol "x1" :=
  purify_charwise_deterministic "a.b" "x1" "x1" rfl

/-- C10 counterexample: for the host-name label `"a_b"` the trust-store
reference (built from the raw label, line 347) does name the declared
certificate struct symbol (built from the purified label, line 323), yet the
label does not consist exclusively of characters in `[A-Za-z0-9]` — so the
claimed equivalence is false as stated. -/
theorem cert_ref_underscore_counterexample :
    certRefName "a_b" = certStructName "a_b" ∧
    ¬ (∀ c ∈ "a_b".data, isAlnum c = true) := by
  constructor
  · decide
  · decide

/-- C10 amended: the emitted trust-store reference names the declared
certificate symbol if and only if every character of the host-name label is
in `[A-Za-z0-9]` or is an underscore (underscores are fixed points of
purification, so they also survive unchanged). -/
theorem cert_ref_matches_iff_alnum_or_underscore (v : String) :
    certRefName v = certStructName v ↔
      ∀ c ∈ v.data, isAlnum c = true ∨ c = Char.ofNat 95 := by
  unfold certRefName certStructName
  rw [String.ext_iff, String.data_append, String.data_append]
  constructor
  · intro h
    have h2 : v.data = (purify_csymbol v).data := List.append_cancel_left h
    exact (purifyLoop_fix_iff v.data).mp h2.symm
  · intro h
    have h2 : purifyLoop v.data = v.data := (purifyLoop_fix_iff v.data).mpr h
    have h3 : (purify_csymbol v).data = v.data := h2
    rw [h3]

/-! ## Decomposition of pass 1 into per-step output deltas -/

theorem trustRefs_eq_reverse (g : PolicyGraph) (l : List Nat) :
    trustRefs g l = (l.map fun cid => certRefName (g.cert_objs cid).vhost_name).reverse := by
  induction l with
  | nil => rfl
  | cons c t ih => simp [trustRefs, ih]

theorem pass1Cert_misc (sz : Sizes) (g : PolicyGraph) (st : EmitState) (c : Nat) :
    (pass1Cert sz g st c).rbomap = st.rbomap ∧
    (pass1Cert sz g st c).trustmap = st.trustmap ∧
    (pass1Cert sz g st c).unique_rbo = st.unique_rbo := by
  unfold pass1Cert
  split <;> simp

theorem foldl_pass1Cert_misc (sz : Sizes) (g : PolicyGraph) (l : List Nat) :
    ∀ st : EmitState,
      (l.foldl (pass1Cert sz g) st).rbomap = st.rbomap ∧
      (l.foldl (pass1Cert sz g) st).trustmap = st.trustmap ∧
      (l.foldl (pass1Cert sz g) st).unique_rbo = st.unique_rbo := by
  induction l with
  | nil => intro st; simp
  | cons c t ih =>
    intro st
    rw [List.foldl_cons]
    obtain ⟨h1, h2, h3⟩ := ih (pass1Cert sz g st c)
    obtain ⟨g1, g2, g3⟩ := pass1Cert_misc sz g st c
    exact ⟨h1.trans g1, h2.trans g2, h3.trans g3⟩

theorem foldl_pass1Cert_out (sz : Sizes) (g : PolicyGraph) (l : List Nat) :
    ∀ st : EmitState,
      (l.foldl (pass1Cert sz g) st).out = st.out ++ certDelta sz g st.certmap l := by
  induction l with
  | nil => intro st; simp [certDelta]
  | cons c t ih =>
    intro st
    rw [List.foldl_cons, ih (pass1Cert sz g st c)]
    cases h : aggLookup st.certmap c with
    | some a => simp [pass1Cert, certDelta, h]
    | none => simp [pass1Cert, certDelta, h]

theorem pass1Rbo_out (sz : Sizes) (g : PolicyGraph) (st : EmitState) (pol : lws_ss_policy) :
    (pass1Rbo sz g st pol).out = st.out ++ rboDelta g st.rbomap st.unique_rbo pol := by
  unfold pass1Rbo rboDelta
  cases pol.retry_bo with
  | none => simp
  | some id => cases h : aggLookup st.rbomap id <;> simp [h]

theorem pass1Rbo_misc (sz : Sizes) (g : PolicyGraph) (st : EmitState) (pol : lws_ss_policy) :
    (pass1Rbo sz g st pol).trustmap = st.trustmap ∧
    (pass1Rbo sz g st pol).certmap = st.certmap := by
  unfold pass1Rbo
  cases pol.retry_bo with
  | none => simp
  | some id => cases h : aggLookup st.rbomap id <;> simp [h]

theorem pass1Trust_out (sz : Sizes) (g : PolicyGraph) (st : EmitState) (pol : lws_ss_policy) :
    (pass1Trust sz g st pol).out = st.out ++ trustDelta sz g st.trustmap st.certmap pol := by
  unfold pass1Trust trustDelta
  cases pol.trust_store with
  | none => simp
  | some sid =>
    cases h : aggLookup st.trustmap sid with
    | some a => simp [h]
    | none =>
      simp only [h]
      rw [foldl_pass1Cert_out]
      simp

theorem pass1Trust_misc (sz : Sizes) (g : PolicyGraph) (st : EmitState) (pol : lws_ss_policy) :
    (pass1Trust sz g st pol).rbomap = st.rbomap ∧
    (pass1Trust sz g st pol).unique_rbo = st.unique_rbo := by
  unfold pass1Trust
  cases pol.trust_store with
  | none => simp
  | some sid =>
    cases h : aggLookup st.trustmap sid with
    | some a => simp [h]
    | none =>
      simp only [h]
      obtain ⟨h1, _, h3⟩ :=
        foldl_pass1Cert_misc sz g (g.store_objs sid).ssx509
          { st with trustmap := ⟨sid, 0⟩ :: st.trustmap }
      simp [h1, h3]

theorem pass1Policy_out (sz : Sizes) (g : PolicyGraph) (st : EmitState) (pol : lws_ss_policy) :
    (pass1Policy sz g st pol).out =
      st.out ++ emitMetadataChain pol.streamtype pol.metadata none 0 ++
        rboDelta g st.rbomap st.unique_rbo pol ++
        trustDelta sz g st.trustmap st.certmap pol := by
  unfold pass1Policy
  rw [pass1Trust_out, pass1Rbo_out]
  obtain ⟨ht, hc⟩ := pass1Rbo_misc sz g
    { st with
      est := st.est + sz.metadata_t * pol.metadata.length
      out := st.out ++ emitMetadataChain pol.streamtype pol.metadata none 0 } pol
  rw [ht, hc]

/-- C2: for a freshly seen trust store, pass 1 emits the per-store certificate
declarations followed by the trust-store struct whose reference array lists
the address-of references to the certificates in exactly the reverse of the
store order. -/
theorem trust_store_refs_reversed (sz : Sizes) (g : PolicyGraph) (st : EmitState)
    (pol : lws_ss_policy) (sid : Nat)
    (h1 : pol.trust_store = some sid) (h2 : aggLookup st.trustmap sid = none) :
    (pass1Trust sz g st pol).out =
      st.out ++ certDelta sz g st.certmap (g.store_objs sid).ssx509 ++
      [EmitItem.trustStruct (tsSymbol (g.store_objs sid).name) (g.store_objs sid).name
        (((g.store_objs sid).ssx509.map
            fun cid => certRefName (g.cert_objs cid).vhost_name).reverse)] := by
  rw [pass1Trust_out]
  unfold trustDelta
  rw [h1]
  simp only [h2]
  rw [trustRefs_eq_reverse]
  simp only [List.append_assoc]

/-! ## Sample fixtures used by witnesses -/

theorem trust_store_refs_reversed_witness :
    (pass1Trust sampleSizes gTrust initState trustPol).out =
      initState.out ++
        certDelta sampleSizes gTrust initState.certmap (gTrust.store_objs 3).ssx509 ++
      [EmitItem.trustStruct (tsSymbol (gTrust.store_objs 3).name) (gTrust.store_objs 3).name
        (((gTrust.store_objs 3).ssx509.map
            fun cid => certRefName (gTrust.cert_objs cid).vhost_name).reverse)] :=
  trust_store_refs_reversed sampleSizes gTrust initState trustPol 3 rfl rfl

/-! ## Shape lemmas: which constructors each emission phase can produce -/

theorem mem_mdChain (s : String) (mds : List lws_ss_metadata) (p : Option String)
    (n : Nat) (i : EmitItem) (hi : i ∈ emitMetadataChain s mds p n) :
    ∃ a b c d e, i = EmitItem.mdRecord a b c d e := by
  induction mds generalizing p n with
  | nil => cases hi
  | cons m t ih =>
    rcases List.mem_cons.mp hi with h | h
    · subst h
      exact ⟨_, _, _, _, _, rfl⟩
    · exact ih _ _ h

theorem mem_authChain (l : List lws_ss_auth) (p : Option String) (i : EmitItem)
    (hi : i ∈ emitAuthChain l p) : ∃ a b c, i = EmitItem.authRecord a b c := by
  induction l generalizing p with
  | nil => cases hi
  | cons au t ih =>
    rcases List.mem_cons.mp hi with h | h
    · subst h
      exact ⟨_, _, _, rfl⟩
    · exact ih _ h

theorem mem_certDelta (sz : Sizes) (g : PolicyGraph) (l : List Nat) (cm : List aggstr)
    (i : EmitItem) (hi : i ∈ certDelta sz g cm l) :
    (∃ a b, i = EmitItem.certDer a b) ∨ (∃ a b c d, i = EmitItem.certStruct a b c d) := by
  induction l generalizing cm with
  | nil => cases hi
  | cons c t ih =>
    unfold certDelta at hi
    revert hi
    split
    · intro hi
      exact ih _ hi
    · intro hi
      rcases List.mem_cons.mp hi with h | h
      · subst h
        exact Or.inl ⟨_, _, rfl⟩
      · rcases List.mem_cons.mp h with h2 | h2
        · subst h2
          exact Or.inr ⟨_, _, _, _, rfl⟩
        · exact ih _ h2

theorem proj_mdChain_nil {β : Type} (f : EmitItem → Option β)
    (hf : ∀ a b c d e, f (EmitItem.mdRecord a b c d e) = none)
    (s : String) (mds : List lws_ss_metadata) (p : Option String) (n : Nat) :
    (emitMetadataChain s mds p n).filterMap f = [] := by
  rw [List.filterMap_eq_nil_iff]
  intro i hi
  obtain ⟨a, b, c, d, e, rfl⟩ := mem_mdChain s mds p n i hi
  exact hf a b c d e

theorem proj_authChain_nil {β : Type} (f : EmitItem → Option β)
    (hf : ∀ a b c, f (EmitItem.authRecord a b c) = none)
    (l : List lws_ss_auth) (p : Option String) :
    (emitAuthChain l p).filterMap f = [] := by
  rw [List.filterMap_eq_nil_iff]
  intro i hi
  obtain ⟨a, b, c, rfl⟩ := mem_authChain l p i hi
  exact hf a b c

theorem proj_certDelta_nil {β : Type} (f : EmitItem → Option β)
    (hfD : ∀ a b, f (EmitItem.certDer a b) = none)
    (hfS : ∀ a b c d, f (EmitItem.certStruct a b c d) = none)
    (sz : Sizes) (g : PolicyGraph) (cm : List aggstr) (l : List Nat) :
    (certDelta sz g cm l).filterMap f = [] := by
  rw [List.filterMap_eq_nil_iff]
  intro i hi
  rcases mem_certDelta sz g l cm i hi with ⟨a, b, rfl⟩ | ⟨a, b, c, d, rfl⟩
  · exact hfD a b
  · exact hfS a b c d

theorem proj_rboDelta_nil {β : Type} (f : EmitItem → Option β)
    (hfA : ∀ o t, f (EmitItem.rboArray o t) = none)
    (hfS : ∀ o bo, f (EmitItem.rboStruct o bo) = none)
    (g : PolicyGraph) (m : List aggstr) (u : Nat) (pol : lws_ss_policy) :
    (rboDelta g m u pol).filterMap f = [] := by
  unfold rboDelta
  cases pol.retry_bo with
  | none => rfl
  | some id => cases h : aggLookup m id <;> simp [h, List.filterMap_cons, hfA, hfS]

theorem proj_trustDelta_nil {β : Type} (f : EmitItem → Option β)
    (hfD : ∀ a b, f (EmitItem.certDer a b) = none)
    (hfS : ∀ a b c d, f (EmitItem.certStruct a b c d) = none)
    (hfT : ∀ a b r, f (EmitItem.trustStruct a b r) = none)
    (sz : Sizes) (g : PolicyGraph) (tm cm : List aggstr) (pol : lws_ss_policy) :
    (trustDelta sz g tm cm pol).filterMap f = [] := by
  unfold trustDelta
  cases pol.trust_store with
  | none => rfl
  | some sid =>
    cases h : aggLookup tm sid with
    | some a => simp [h]
    | none =>
      simp [h, List.filterMap_append, proj_certDelta_nil f hfD hfS,
        List.filterMap_cons, hfT]

/-! ## Evolution of the retry/backoff interning map over pass 1 -/

theorem pass1Rbo_rbomap (sz : Sizes) (g : PolicyGraph) (st : EmitState)
    (pol : lws_ss_policy) :
    (pass1Rbo sz g st pol).rbomap = (rboMapStep st.rbomap st.unique_rbo pol.retry_bo).1 ∧
    (pass1Rbo sz g st pol).unique_rbo =
      (rboMapStep st.rbomap st.unique_rbo pol.retry_bo).2 := by
  unfold pass1Rbo rboMapStep
  cases pol.retry_bo with
  | none => exact ⟨rfl, rfl⟩
  | some id => cases h : aggLookup st.rbomap id <;> simp [h]

theorem pass1Policy_rbomap (sz : Sizes) (g : PolicyGraph) (st : EmitState)
    (pol : lws_ss_policy) :
    (pass1Policy sz g st pol).rbomap =
      (rboMapStep st.rbomap st.unique_rbo pol.retry_bo).1 ∧
    (pass1Policy sz g st pol).unique_rbo =
      (rboMapStep st.rbomap st.unique_rbo pol.retry_bo).2 := by
  unfold pass1Policy
  obtain ⟨h1, h2⟩ := pass1Trust_misc sz g _ pol
  rw [h1, h2]
  exact pass1Rbo_rbomap sz g _ pol

/-! ## Characterization of pass 2 -/

theorem protoEmit_none_iff (pol : lws_ss_policy) :
    protoEmit pol = none ↔ ¬ knownProtocol pol.protocol := by
  unfold protoEmit knownProtocol
  split
  · rename_i h
    simp only [reduceCtorEq, false_iff, not_not]
    tauto
  · rename_i h
    split
    · rename_i h2
      simp only [reduceCtorEq, false_iff, not_not]
      tauto
    · rename_i h2
      simp only [true_iff]
      tauto

theorem rboRefResolve_ne_none (rbomap : List aggstr) (pol : lws_ss_policy)
    (hr : ∀ id, pol.retry_bo = some id → aggLookup rbomap id ≠ none) :
    rboRefResolve rbomap pol.retry_bo ≠ none := by
  cases h : pol.retry_bo with
  | none => simp [rboRefResolve]
  | some id =>
    cases h2 : aggLookup rbomap id with
    | none => exact absurd h2 (hr id h)
    | some a => simp [rboRefResolve, h2]

theorem pass2Policy_eq (sz : Sizes) (g : PolicyGraph) (rbomap : List aggstr)
    (st : Pass2State) (pol : lws_ss_policy)
    (hu : protoEmit pol ≠ none) (hr : rboRefResolve rbomap pol.retry_bo ≠ none) :
    pass2Policy sz g rbomap st pol = some
      { est := st.est + sz.policy_t
        out := st.out ++ [EmitItem.policyStruct (pass2Emission g rbomap st.prev pol)]
        prev := some (sspSymbol pol.streamtype)
        lastSym := some (sspSymbol pol.streamtype) } := by
  obtain ⟨x, hx⟩ := Option.ne_none_iff_exists'.mp hu
  obtain ⟨r, hrr⟩ := Option.ne_none_iff_exists'.mp hr
  obtain ⟨xh, xw, xm⟩ := x
  unfold pass2Policy pass2Emission
  rw [hx, hrr]
  simp [hx, hrr]

theorem pass2Policy_fail_proto (sz : Sizes) (g : PolicyGraph) (rbomap : List aggstr)
    (st : Pass2State) (pol : lws_ss_policy) (h : protoEmit pol = none) :
    pass2Policy sz g rbomap st pol = none := by
  unfold pass2Policy
  rw [h]

theorem pass2Go_success (sz : Sizes) (g : PolicyGraph) (rbomap : List aggstr)
    (l : List lws_ss_policy) : ∀ st : Pass2State,
    (∀ p ∈ l, knownProtocol p.protocol) →
    (∀ p ∈ l, ∀ id, p.retry_bo = some id → aggLookup rbomap id ≠ none) →
    (pass2Go sz g rbomap st l).2 = true ∧
    (pass2Go sz g rbomap st l).1.out =
      st.out ++ (pass2Emissions g rbomap st.prev l).map EmitItem.policyStruct ∧
    (pass2Go sz g rbomap st l).1.est = st.est + sz.policy_t * l.length ∧
    (pass2Go sz g rbomap st l).1.lastSym = pass2SymAfter st.lastSym l ∧
    (pass2Go sz g rbomap st l).1.prev = pass2SymAfter st.prev l := by
  induction l with
  | nil =>
    intro st hk hr
    simp [pass2Go, pass2Emissions, pass2SymAfter]
  | cons p t ih =>
    intro st hk hr
    have hp : protoEmit p ≠ none := by
      rw [ne_eq, protoEmit_none_iff, not_not]
      exact hk p (List.mem_cons_self p t)
    have hrp : rboRefResolve rbomap p.retry_bo ≠ none :=
      rboRefResolve_ne_none rbomap p
        (fun id hid => hr p (List.mem_cons_self p t) id hid)
    have hstep := pass2Policy_eq sz g rbomap st p hp hrp
    have hgo : pass2Go sz g rbomap st (p :: t) =
        pass2Go sz g rbomap
          { est := st.est + sz.policy_t
            out := st.out ++
              [EmitItem.policyStruct (pass2Emission g rbomap st.prev p)]
            prev := some (sspSymbol p.streamtype)
            lastSym := some (sspSymbol p.streamtype) } t := by
      show (match pass2Policy sz g rbomap st p with
            | none => (st, false)
            | some st1 => pass2Go sz g rbomap st1 t) = _
      rw [hstep]
    rw [hgo]
    obtain ⟨ih1, ih2, ih3, ih4, ih5⟩ := ih _
      (fun q hq => hk q (List.mem_cons_of_mem p hq))
      (fun q hq id hid => hr q (List.mem_cons_of_mem p hq) id hid)
    refine ⟨ih1, ?_, ?_, ?_, ?_⟩
    · rw [ih2]
      simp [pass2Emissions, List.append_assoc, Nat.mul_succ]
    · rw [ih3]
      show st.est + sz.policy_t + sz.policy_t * t.length =
        st.est + sz.policy_t * (t.length + 1)
      rw [Nat.mul_succ]
      omega
    · rw [ih4]
      simp [pass2SymAfter]
    · rw [ih5]
      simp [pass2SymAfter]

theorem pass2Go_bail (sz : Sizes) (g : PolicyGraph) (rbomap : List aggstr)
    (st : Pass2State) (pol : lws_ss_policy) (l : List lws_ss_policy)
    (h : pass2Policy sz g rbomap st pol = none) :
    pass2Go sz g rbomap st (pol :: l) = (st, false) := by
  unfold pass2Go
  rw [h]

theorem pass2Go_append (sz : Sizes) (g : PolicyGraph) (rbomap : List aggstr)
    (l1 l2 : List lws_ss_policy) : ∀ st : Pass2State,
    pass2Go sz g rbomap st (l1 ++ l2) =
      match pass2Go sz g rbomap st l1 with
      | (st1, true) => pass2Go sz g rbomap st1 l2
      | (st1, false) => (st1, false) := by
  induction l1 with
  | nil => intro st; rfl
  | cons p t ih =>
    intro st
    cases h : pass2Policy sz g rbomap st p with
    | none =>
      have e1 : pass2Go sz g rbomap st (p :: (t ++ l2)) = (st, false) :=
        pass2Go_bail sz g rbomap st p (t ++ l2) h
      have e2 : pass2Go sz g rbomap st (p :: t) = (st, false) :=
        pass2Go_bail sz g rbomap st p t h
      rw [show (p :: t) ++ l2 = p :: (t ++ l2) from rfl, e1, e2]
    | some st1 =>
      have e1 : pass2Go sz g rbomap st (p :: (t ++ l2)) =
          pass2Go sz g rbomap st1 (t ++ l2) := by
        show (match pass2Policy sz g rbomap st p with
              | none => (st, false)
              | some s => pass2Go sz g rbomap s (t ++ l2)) = _
        rw [h]
      have e2 : pass2Go sz g rbomap st (p :: t) = pass2Go sz g rbomap st1 t := by
        show (match pass2Policy sz g rbomap st p with
              | none => (st, false)
              | some s => pass2Go sz g rbomap s t) = _
        rw [h]
      rw [show (p :: t) ++ l2 = p :: (t ++ l2) from rfl, e1, e2, ih st1]

theorem policyEmits_map_policyStruct (l : List PolicyEmission) :
    policyEmits (l.map EmitItem.policyStruct) = l := by
  induction l with
  | nil => rfl
  | cons p t ih => simp [policyEmits, List.filterMap_cons] at *; exact ih

theorem pass2Emissions_streamtypes (g : PolicyGraph) (rbomap : List aggstr)
    (l : List lws_ss_policy) : ∀ prev : Option String,
    (pass2Emissions g rbomap prev l).map (fun e => e.streamtype) =
      l.map (fun p => p.streamtype) := by
  induction l with
  | nil => intro prev; rfl
  | cons p t ih => intro prev; simp [pass2Emissions, pass2Emission, ih]

theorem pass2Emissions_rboRefs (g : PolicyGraph) (rbomap : List aggstr)
    (l : List lws_ss_policy) : ∀ prev : Option String,
    (pass2Emissions g rbomap prev l).map (fun e => e.rboRef) =
      l.map (fun p => (rboRefResolve rbomap p.retry_bo).getD none) := by
  induction l with
  | nil => intro prev; rfl
  | cons p t ih => intro prev; simp [pass2Emissions, pass2Emission, ih]

/-! ## The interning map only grows over pass 1 -/

theorem aggLookup_cons (x : aggstr) (m : List aggstr) (id : Nat) :
    aggLookup (x :: m) id = if x.orig = id then some x else aggLookup m id := rfl

theorem aggLookup_some_mem (m : List aggstr) (id : Nat) (a : aggstr)
    (h : aggLookup m id = some a) : a ∈ m ∧ a.orig = id := by
  induction m with
  | nil => cases h
  | cons x rest ih =>
    rw [aggLookup_cons] at h
    split at h
    · rename_i hx
      injection h with hxa
      subst hxa
      exact ⟨List.mem_cons_self x rest, hx⟩
    · obtain ⟨h1, h2⟩ := ih h
      exact ⟨List.mem_cons_of_mem x h1, h2⟩

theorem MapExt_refl (m : List aggstr) : MapExt m m := fun _ _ h => h

theorem MapExt_trans {m1 m2 m3 : List aggstr} (h1 : MapExt m1 m2) (h2 : MapExt m2 m3) :
    MapExt m1 m3 := fun id a h => h2 id a (h1 id a h)

theorem MapExt_cons (x : aggstr) (m : List aggstr) (hx : aggLookup m x.orig = none) :
    MapExt m (x :: m) := by
  intro id a h
  rw [aggLookup_cons]
  split
  · rename_i he
    rw [← he] at h
    rw [hx] at h
    cases h
  · exact h

theorem MapExt_ne_none {m m2 : List aggstr} (h : MapExt m m2) (id : Nat)
    (hne : aggLookup m id ≠ none) : aggLookup m2 id ≠ none := by
  obtain ⟨a, ha⟩ := Option.ne_none_iff_exists'.mp hne
  rw [h id a ha]
  simp

theorem rboMapStep_ext (m : List aggstr) (u : Nat) (ob : Option Nat) :
    MapExt m (rboMapStep m u ob).1 := by
  cases ob with
  | none => exact MapExt_refl m
  | some id =>
    cases h : aggLookup m id with
    | some a =>
      have heq : (rboMapStep m u (some id)).1 = m := by simp [rboMapStep, h]
      rw [heq]
      exact MapExt_refl m
    | none =>
      have heq : (rboMapStep m u (some id)).1 = ⟨id, u⟩ :: m := by simp [rboMapStep, h]
      rw [heq]
      exact MapExt_cons ⟨id, u⟩ m h

theorem rboMapStep_covers (m : List aggstr) (u id : Nat) :
    aggLookup (rboMapStep m u (some id)).1 id ≠ none := by
  cases h : aggLookup m id with
  | some a =>
    have heq : (rboMapStep m u (some id)).1 = m := by simp [rboMapStep, h]
    rw [heq, h]
    simp
  | none =>
    have heq : (rboMapStep m u (some id)).1 = ⟨id, u⟩ :: m := by simp [rboMapStep, h]
    rw [heq, aggLookup_cons]
    simp

theorem pass1Policy_ext (sz : Sizes) (g : PolicyGraph) (st : EmitState)
    (pol : lws_ss_policy) : MapExt st.rbomap (pass1Policy sz g st pol).rbomap := by
  rw [(pass1Policy_rbomap sz g st pol).1]
  exact rboMapStep_ext st.rbomap st.unique_rbo pol.retry_bo

theorem foldl_pass1_ext (sz : Sizes) (g : PolicyGraph) (l : List lws_ss_policy) :
    ∀ st : EmitState, MapExt st.rbomap ((l.foldl (pass1Policy sz g) st).rbomap) := by
  induction l with
  | nil => intro st; exact MapExt_refl st.rbomap
  | cons p t ih =>
    intro st
    rw [List.foldl_cons]
    exact MapExt_trans (pass1Policy_ext sz g st p) (ih (pass1Policy sz g st p))

theorem foldl_pass1_covers (sz : Sizes) (g : PolicyGraph) (l : List lws_ss_policy) :
    ∀ st : EmitState, ∀ p ∈ l, ∀ id, p.retry_bo = some id →
      aggLookup ((l.foldl (pass1Policy sz g) st).rbomap) id ≠ none := by
  induction l with
  | nil => intro st p hp; cases hp
  | cons q t ih =>
    intro st p hp id hid
    rw [List.foldl_cons]
    rcases List.mem_cons.mp hp with h | h
    · subst h
      apply MapExt_ne_none (foldl_pass1_ext sz g t (pass1Policy sz g st p))
      rw [(pass1Policy_rbomap sz g st p).1, hid]
      exact rboMapStep_covers st.rbomap st.unique_rbo id
    · exact ih (pass1Policy sz g st q) p h id hid

theorem pass1_covers (sz : Sizes) (g : PolicyGraph) :
    ∀ p ∈ g.policies, ∀ id, p.retry_bo = some id →
      aggLookup (pass1 sz g).rbomap id ≠ none :=
  foldl_pass1_covers sz g g.policies initState

/-! ## Every interned retry table has its struct in the pass-1 output -/

theorem RboEmitted_init (g : PolicyGraph) : RboEmitted g initState := by
  intro e he
  cases he

theorem RboEmitted_step (sz : Sizes) (g : PolicyGraph) (st : EmitState)
    (pol : lws_ss_policy) (h : RboEmitted g st) :
    RboEmitted g (pass1Policy sz g st pol) := by
  intro e he
  rw [(pass1Policy_rbomap sz g st pol).1] at he
  rw [pass1Policy_out]
  cases hob : pol.retry_bo with
  | none =>
    rw [hob] at he
    exact List.mem_append_left _ (List.mem_append_left _ (List.mem_append_left _ (h e he)))
  | some id =>
    rw [hob] at he
    cases hlk : aggLookup st.rbomap id with
    | some a =>
      have heq : (rboMapStep st.rbomap st.unique_rbo (some id)).1 = st.rbomap := by
        simp [rboMapStep, hlk]
      rw [heq] at he
      exact List.mem_append_left _ (List.mem_append_left _ (List.mem_append_left _ (h e he)))
    | none =>
      have heq : (rboMapStep st.rbomap st.unique_rbo (some id)).1 =
          ⟨id, st.unique_rbo⟩ :: st.rbomap := by
        simp [rboMapStep, hlk]
      rw [heq] at he
      rcases List.mem_cons.mp he with h2 | h2
      · subst h2
        apply List.mem_append_left
        apply List.mem_append_right
        simp [rboDelta, hob, hlk]
      · exact List.mem_append_left _
          (List.mem_append_left _ (List.mem_append_left _ (h e h2)))

theorem RboEmitted_foldl (sz : Sizes) (g : PolicyGraph) (l : List lws_ss_policy) :
    ∀ st : EmitState, RboEmitted g st → RboEmitted g (l.foldl (pass1Policy sz g) st) := by
  induction l with
  | nil => intro st h; exact h
  | cons p t ih =>
    intro st h
    rw [List.foldl_cons]
    exact ih (pass1Policy sz g st p) (RboEmitted_step sz g st p h)

theorem RboEmitted_pass1 (sz : Sizes) (g : PolicyGraph) : RboEmitted g (pass1 sz g) :=
  RboEmitted_foldl sz g g.policies initState (RboEmitted_init g)

/-! ## Projections through pass 1 -/

theorem policyEmits_pass1Policy (sz : Sizes) (g : PolicyGraph) (st : EmitState)
    (pol : lws_ss_policy) :
    policyEmits (pass1Policy sz g st pol).out = policyEmits st.out := by
  rw [pass1Policy_out]
  unfold policyEmits
  rw [List.filterMap_append, List.filterMap_append, List.filterMap_append]
  rw [proj_mdChain_nil _ (fun _ _ _ _ _ => rfl),
    proj_rboDelta_nil _ (fun _ _ => rfl) (fun _ _ => rfl),
    proj_trustDelta_nil _ (fun _ _ => rfl) (fun _ _ _ _ => rfl) (fun _ _ _ => rfl)]
  simp

theorem policyEmits_pass1 (sz : Sizes) (g : PolicyGraph) :
    policyEmits (pass1 sz g).out = [] := by
  have key : ∀ (l : List lws_ss_policy) (st : EmitState),
      policyEmits ((l.foldl (pass1Policy sz g) st).out) = policyEmits st.out := by
    intro l
    induction l with
    | nil => intro st; rfl
    | cons p t ih =>
      intro st
      rw [List.foldl_cons, ih (pass1Policy sz g st p), policyEmits_pass1Policy]
  exact key g.policies initState

theorem reportsOf_pass1Policy (sz : Sizes) (g : PolicyGraph) (st : EmitState)
    (pol : lws_ss_policy) :
    reportsOf (pass1Policy sz g st pol).out = reportsOf st.out := by
  rw [pass1Policy_out]
  unfold reportsOf
  rw [List.filterMap_append, List.filterMap_append, List.filterMap_append]
  rw [proj_mdChain_nil _ (fun _ _ _ _ _ => rfl),
    proj_rboDelta_nil _ (fun _ _ => rfl) (fun _ _ => rfl),
    proj_trustDelta_nil _ (fun _ _ => rfl) (fun _ _ _ _ => rfl) (fun _ _ _ => rfl)]
  simp

theorem reportsOf_pass1 (sz : Sizes) (g : PolicyGraph) :
    reportsOf (pass1 sz g).out = [] := by
  have key : ∀ (l : List lws_ss_policy) (st : EmitState),
      reportsOf ((l.foldl (pass1Policy sz g) st).out) = reportsOf st.out := by
    intro l
    induction l with
    | nil => intro st; rfl
    | cons p t ih =>
      intro st
      rw [List.foldl_cons, ih (pass1Policy sz g st p), reportsOf_pass1Policy]
  exact key g.policies initState

/-! ## Whole-run characterizations -/

theorem runEmitter_eq (sz : Sizes) (g : PolicyGraph) :
    runEmitter sz g =
      (match pass2Go sz g (pass1 sz g).rbomap (pass2Init sz g) g.policies with
       | (st, false) => (st.out, 1)
       | (st, true) =>
         (st.out ++
            (match st.lastSym with
             | some s => [EmitItem.defaultEntryAlias s]
             | none => []) ++
            [EmitItem.footprintReport (st.est + last_offset) sz.voidp], 0)) := rfl

theorem policyEmits_append (a b : List EmitItem) :
    policyEmits (a ++ b) = policyEmits a ++ policyEmits b :=
  List.filterMap_append a b _

theorem rboStructEmits_append (a b : List EmitItem) :
    rboStructEmits (a ++ b) = rboStructEmits a ++ rboStructEmits b :=
  List.filterMap_append a b _

theorem rboArrayEmits_append (a b : List EmitItem) :
    rboArrayEmits (a ++ b) = rboArrayEmits a ++ rboArrayEmits b :=
  List.filterMap_append a b _

theorem reportsOf_append (a b : List EmitItem) :
    reportsOf (a ++ b) = reportsOf a ++ reportsOf b :=
  List.filterMap_append a b _

theorem runEmitter_ok (sz : Sizes) (g : PolicyGraph) (stF : Pass2State)
    (h : pass2Go sz g (pass1 sz g).rbomap (pass2Init sz g) g.policies = (stF, true)) :
    runEmitter sz g =
      (stF.out ++
         (match stF.lastSym with
          | some s => [EmitItem.defaultEntryAlias s]
          | none => []) ++
         [EmitItem.footprintReport (stF.est + last_offset) sz.voidp], 0) := by
  rw [runEmitter_eq, h]

theorem runEmitter_fail (sz : Sizes) (g : PolicyGraph) (stF : Pass2State)
    (h : pass2Go sz g (pass1 sz g).rbomap (pass2Init sz g) g.policies = (stF, false)) :
    runEmitter sz g = (stF.out, 1) := by
  rw [runEmitter_eq, h]

theorem runEmitter_success (sz : Sizes) (g : PolicyGraph)
    (hk : ∀ p ∈ g.policies, knownProtocol p.protocol)
    (hr : ∀ p ∈ g.policies, ∀ id, p.retry_bo = some id →
        aggLookup (pass1 sz g).rbomap id ≠ none) :
    runEmitter sz g =
      ((pass1 sz g).out ++ emitAuthChain g.auths none ++
        (pass2Emissions g (pass1 sz g).rbomap none g.policies).map
          EmitItem.policyStruct ++
        (match pass2SymAfter none g.policies with
         | some s => [EmitItem.defaultEntryAlias s]
         | none => []) ++
        [EmitItem.footprintReport
          ((pass1 sz g).est + sz.policy_t * g.policies.length + last_offset)
          sz.voidp],
       0) := by
  obtain ⟨h1, h2, h3, h4, h5⟩ :=
    pass2Go_success sz g (pass1 sz g).rbomap g.policies (pass2Init sz g) hk hr
  have hgo : pass2Go sz g (pass1 sz g).rbomap (pass2Init sz g) g.policies =
      ({ est := (pass2Init sz g).est + sz.policy_t * g.policies.length
         out := (pass2Init sz g).out ++
           (pass2Emissions g (pass1 sz g).rbomap (pass2Init sz g).prev
             g.policies).map EmitItem.policyStruct
         prev := pass2SymAfter (pass2Init sz g).prev g.policies
         lastSym := pass2SymAfter (pass2Init sz g).lastSym g.policies }, true) := by
    rw [← h1, ← h2, ← h3, ← h4, ← h5]
  rw [runEmitter_ok sz g _ hgo]
  simp [pass2Init, List.append_assoc]

theorem runEmitter_bail (sz : Sizes) (g : PolicyGraph) (pre : List lws_ss_policy)
    (bad : lws_ss_policy) (post : List lws_ss_policy)
    (hpols : g.policies = pre ++ bad :: post)
    (hkpre : ∀ p ∈ pre, knownProtocol p.protocol)
    (hrpre : ∀ p ∈ pre, ∀ id, p.retry_bo = some id →
        aggLookup (pass1 sz g).rbomap id ≠ none)
    (hbad : ¬ knownProtocol bad.protocol) :
    runEmitter sz g =
      ((pass1 sz g).out ++ emitAuthChain g.auths none ++
        (pass2Emissions g (pass1 sz g).rbomap none pre).map EmitItem.policyStruct,
       1) := by
  obtain ⟨h1, h2, h3, h4, h5⟩ :=
    pass2Go_success sz g (pass1 sz g).rbomap pre (pass2Init sz g) hkpre hrpre
  have hgoPre : pass2Go sz g (pass1 sz g).rbomap (pass2Init sz g) pre =
      ({ est := (pass2Init sz g).est + sz.policy_t * pre.length
         out := (pass2Init sz g).out ++
           (pass2Emissions g (pass1 sz g).rbomap (pass2Init sz g).prev
             pre).map EmitItem.policyStruct
         prev := pass2SymAfter (pass2Init sz g).prev pre
         lastSym := pass2SymAfter (pass2Init sz g).lastSym pre }, true) := by
    rw [← h1, ← h2, ← h3, ← h4, ← h5]
  have hfail : pass2Policy sz g (pass1 sz g).rbomap
      { est := (pass2Init sz g).est + sz.policy_t * pre.length
        out := (pass2Init sz g).out ++
          (pass2Emissions g (pass1 sz g).rbomap (pass2Init sz g).prev
            pre).map EmitItem.policyStruct
        prev := pass2SymAfter (pass2Init sz g).prev pre
        lastSym := pass2SymAfter (pass2Init sz g).lastSym pre } bad = none :=
    pass2Policy_fail_proto sz g (pass1 sz g).rbomap _ bad
      ((protoEmit_none_iff bad).mpr hbad)
  have hmid : pass2Go sz g (pass1 sz g).rbomap (pass2Init sz g) g.policies =
      ({ est := (pass2Init sz g).est + sz.policy_t * pre.length
         out := (pass2Init sz g).out ++
           (pass2Emissions g (pass1 sz g).rbomap (pass2Init sz g).prev
             pre).map EmitItem.policyStruct
         prev := pass2SymAfter (pass2Init sz g).prev pre
         lastSym := pass2SymAfter (pass2Init sz g).lastSym pre }, false) := by
    rw [hpols, pass2Go_append sz g (pass1 sz g).rbomap pre (bad :: post)
      (pass2Init sz g), hgoPre]
    exact pass2Go_bail sz g (pass1 sz g).rbomap _ bad post hfail
  rw [runEmitter_fail sz g _ hmid]
  simp [pass2Init, List.append_assoc]

/-- C7: every retry/backoff reference resolved in pass 2 was interned and its
struct emitted in pass 1 (the interning map after pass 1 covers every policy
node's retry identity, and each map entry has its `lws_retry_bo_t` struct in
the pass-1 output); and if a node's retry identity is not found in the map
during pass 2, the iteration fails (`goto bail`, non-zero exit) instead of
emitting a dangling reference. -/
theorem shared_refs_interned_before_use (sz : Sizes) (g : PolicyGraph)
    (p : lws_ss_policy) (id : Nat) (rbomap : List aggstr) (st : Pass2State)
    (pol : lws_ss_policy) (id2 : Nat)
    (hp : p ∈ g.policies) (hid : p.retry_bo = some id)
    (hk : knownProtocol pol.protocol) (hpol : pol.retry_bo = some id2)
    (hmiss : aggLookup rbomap id2 = none) :
    aggLookup (pass1 sz g).rbomap id ≠ none ∧
    EmitItem.rboStruct (rboOffsetOf (pass1 sz g).rbomap id) (g.rbo_objs id) ∈
      (pass1 sz g).out ∧
    pass2Policy sz g rbomap st pol = none := by
  have hne := pass1_covers sz g p hp id hid
  obtain ⟨a, ha⟩ := Option.ne_none_iff_exists'.mp hne
  obtain ⟨hmem, horig⟩ := aggLookup_some_mem _ _ _ ha
  refine ⟨hne, ?_, ?_⟩
  · have hin := RboEmitted_pass1 sz g a hmem
    have hoeq : rboOffsetOf (pass1 sz g).rbomap id = a.offset := by
      simp [rboOffsetOf, ha]
    rw [hoeq, ← horig]
    exact hin
  · have hpe : protoEmit pol ≠ none := by
      rw [ne_eq, protoEmit_none_iff, not_not]
      exact hk
    obtain ⟨x, hx⟩ := Option.ne_none_iff_exists'.mp hpe
    obtain ⟨xh, xw, xm⟩ := x
    simp [pass2Policy, hx, hpol, rboRefResolve, hmiss]

theorem shared_refs_interned_before_use_witness :
    aggLookup (pass1 sampleSizes gRbo).rbomap 7 ≠ none ∧
    EmitItem.rboStruct (rboOffsetOf (pass1 sampleSizes gRbo).rbomap 7)
      (gRbo.rbo_objs 7) ∈ (pass1 sampleSizes gRbo).out ∧
    pass2Policy sampleSizes gRbo [] stP2 pRbo = none :=
  shared_refs_interned_before_use sampleSizes gRbo pRbo 7 [] stP2 pRbo 7
    (List.mem_cons_self pRbo []) rfl (Or.inl rfl) rfl rfl

/-- C4: if a policy node carries an unrecognized protocol-kind tag, the run
exits non-zero (`bad = 1`) and the output contains completed top-level policy
structs only for the nodes strictly before it: neither the offending node nor
any node after it gets a top-level struct. -/
theorem unknown_protocol_fatal (sz : Sizes) (g : PolicyGraph)
    (pre : List lws_ss_policy) (bad : lws_ss_policy) (post : List lws_ss_policy)
    (hpols : g.policies = pre ++ bad :: post)
    (hkpre : ∀ p ∈ pre, knownProtocol p.protocol)
    (hbad : ¬ knownProtocol bad.protocol) :
    (runEmitter sz g).2 = 1 ∧
    (policyEmits (runEmitter sz g).1).map (fun e => e.streamtype) =
      pre.map (fun p => p.streamtype) := by
  have hrpre : ∀ p ∈ pre, ∀ id, p.retry_bo = some id →
      aggLookup (pass1 sz g).rbomap id ≠ none := by
    intro p hp id hid
    refine pass1_covers sz g p ?_ id hid
    rw [hpols]
    exact List.mem_append_left _ hp
  rw [runEmitter_bail sz g pre bad post hpols hkpre hrpre hbad]
  refine ⟨rfl, ?_⟩
  rw [policyEmits_append, policyEmits_append, policyEmits_pass1]
  rw [show policyEmits (emitAuthChain g.auths none) = [] from
    proj_authChain_nil _ (fun _ _ _ => rfl) g.auths none]
  rw [policyEmits_map_policyStruct]
  simp [pass2Emissions_streamtypes]

theorem unknown_protocol_fatal_witness :
    (runEmitter sampleSizes gBad).2 = 1 ∧
    (policyEmits (runEmitter sampleSizes gBad).1).map (fun e => e.streamtype) =
      [basePol].map (fun p => p.streamtype) :=
  unknown_protocol_fatal sampleSizes gBad [basePol] badPol [] rfl
    (by intro p hp; rw [List.mem_singleton] at hp; rw [hp]; exact Or.inl rfl)
    (by decide)

/-! ## Counting retry-table emissions -/

theorem rboStructEmits_pass1Policy (sz : Sizes) (g : PolicyGraph) (st : EmitState)
    (pol : lws_ss_policy) :
    rboStructEmits (pass1Policy sz g st pol).out =
      rboStructEmits st.out ++
        rboStructEmits (rboDelta g st.rbomap st.unique_rbo pol) := by
  rw [pass1Policy_out]
  unfold rboStructEmits
  rw [List.filterMap_append, List.filterMap_append, List.filterMap_append]
  rw [proj_mdChain_nil _ (fun _ _ _ _ _ => rfl),
    proj_trustDelta_nil _ (fun _ _ => rfl) (fun _ _ _ _ => rfl) (fun _ _ _ => rfl)]
  simp

theorem rboArrayEmits_pass1Policy (sz : Sizes) (g : PolicyGraph) (st : EmitState)
    (pol : lws_ss_policy) :
    rboArrayEmits (pass1Policy sz g st pol).out =
      rboArrayEmits st.out ++
        rboArrayEmits (rboDelta g st.rbomap st.unique_rbo pol) := by
  rw [pass1Policy_out]
  unfold rboArrayEmits
  rw [List.filterMap_append, List.filterMap_append, List.filterMap_append]
  rw [proj_mdChain_nil _ (fun _ _ _ _ _ => rfl),
    proj_trustDelta_nil _ (fun _ _ => rfl) (fun _ _ _ _ => rfl) (fun _ _ _ => rfl)]
  simp

theorem proj_map_policyStruct_nil {β : Type} (f : EmitItem → Option β)
    (hf : ∀ p, f (EmitItem.policyStruct p) = none) (l : List PolicyEmission) :
    (l.map EmitItem.policyStruct).filterMap f = [] := by
  rw [List.filterMap_eq_nil_iff]
  intro i hi
  obtain ⟨p, _, rfl⟩ := List.mem_map.mp hi
  exact hf p

theorem proj_aliasMatch_nil {β : Type} (f : EmitItem → Option β)
    (hf : ∀ s, f (EmitItem.defaultEntryAlias s) = none) (o : Option String) :
    (match o with
     | some s => [EmitItem.defaultEntryAlias s]
     | none => ([] : List EmitItem)).filterMap f = [] := by
  cases o with
  | some s => simp [List.filterMap_cons, hf]
  | none => rfl

theorem pair_fst {α β : Type} {x : α × β} {a : α} {b : β} (h : x = (a, b)) :
    x.1 = a := by
  rw [h]

theorem pair_snd {α β : Type} {x : α × β} {a : α} {b : β} (h : x = (a, b)) :
    x.2 = b := by
  rw [h]

/-- C3: identity interning is idempotent — interning the same identity again
right after it was interned (or found) returns the same handle, adds no entry
and bumps no counter — and consequently a two-node policy list whose nodes
share one retry/backoff identity yields exactly one emitted backoff array,
exactly one emitted `lws_retry_bo_t` struct, and two top-level structs whose
retry references carry the same handle 0, with a successful exit. -/
theorem intern_idempotent_and_retry_dedup (m : List aggstr) (u id : Nat)
    (m1 : List aggstr) (u1 h1 : Nat) (b1 : Bool) (sz : Sizes) (g : PolicyGraph)
    (rid : Nat) (p1 p2 : lws_ss_policy)
    (hintern : internRbo m u id = (m1, u1, h1, b1))
    (hpols : g.policies = [p1, p2])
    (hr1 : p1.retry_bo = some rid) (hr2 : p2.retry_bo = some rid)
    (hk1 : knownProtocol p1.protocol) (hk2 : knownProtocol p2.protocol) :
    internRbo m1 u1 id = (m1, u1, h1, false) ∧
    rboStructEmits (runEmitter sz g).1 = [(0, g.rbo_objs rid)] ∧
    rboArrayEmits (runEmitter sz g).1 = [(0, (g.rbo_objs rid).retry_ms_table)] ∧
    (policyEmits (runEmitter sz g).1).map (fun e => e.rboRef) =
      [some 0, some 0] ∧
    (runEmitter sz g).2 = 0 := by
  have hidem : internRbo m1 u1 id = (m1, u1, h1, false) := by
    unfold internRbo at hintern ⊢
    cases hlk : aggLookup m id with
    | some a =>
      rw [hlk] at hintern
      cases hintern
      rw [hlk]
    | none =>
      rw [hlk] at hintern
      cases hintern
      have hfind : aggLookup (⟨id, u⟩ :: m) id = some ⟨id, u⟩ := by
        rw [aggLookup_cons]
        simp
      rw [hfind]
  have hfold : pass1 sz g = pass1Policy sz g (pass1Policy sz g initState p1) p2 := by
    unfold pass1
    rw [hpols]
    rfl
  have hArb : (pass1Policy sz g initState p1).rbomap = [⟨rid, 0⟩] := by
    rw [(pass1Policy_rbomap sz g initState p1).1, hr1]
    simp [rboMapStep, initState, aggLookup]
  have hAu : (pass1Policy sz g initState p1).unique_rbo = 1 := by
    rw [(pass1Policy_rbomap sz g initState p1).2, hr1]
    simp [rboMapStep, initState, aggLookup]
  have hBrb : (pass1 sz g).rbomap = [⟨rid, 0⟩] := by
    rw [hfold, (pass1Policy_rbomap sz g _ p2).1, hr2, hArb]
    simp [rboMapStep, aggLookup]
  have hd1 : rboDelta g initState.rbomap initState.unique_rbo p1 =
      [EmitItem.rboArray 0 (g.rbo_objs rid).retry_ms_table,
       EmitItem.rboStruct 0 (g.rbo_objs rid)] := by
    simp [rboDelta, hr1, initState, aggLookup]
  have hd2 : rboDelta g (pass1Policy sz g initState p1).rbomap
      (pass1Policy sz g initState p1).unique_rbo p2 = [] := by
    rw [hArb, hAu]
    simp [rboDelta, hr2, aggLookup]
  have hS : rboStructEmits (pass1 sz g).out = [(0, g.rbo_objs rid)] := by
    rw [hfold, rboStructEmits_pass1Policy, rboStructEmits_pass1Policy, hd1, hd2]
    simp [rboStructEmits, List.filterMap_cons, initState]
  have hA : rboArrayEmits (pass1 sz g).out =
      [(0, (g.rbo_objs rid).retry_ms_table)] := by
    rw [hfold, rboArrayEmits_pass1Policy, rboArrayEmits_pass1Policy, hd1, hd2]
    simp [rboArrayEmits, List.filterMap_cons, initState]
  have hkall : ∀ p ∈ g.policies, knownProtocol p.protocol := by
    intro p hp
    rw [hpols] at hp
    rcases List.mem_cons.mp hp with h | h
    · subst h
      exact hk1
    · rw [List.mem_singleton] at h
      subst h
      exact hk2
  have hrall : ∀ p ∈ g.policies, ∀ i2, p.retry_bo = some i2 →
      aggLookup (pass1 sz g).rbomap i2 ≠ none := by
    intro p hp i2 hi2
    rw [hpols] at hp
    rw [hBrb]
    rcases List.mem_cons.mp hp with h | h
    · subst h
      rw [hr1] at hi2
      cases hi2
      simp [aggLookup]
    · rw [List.mem_singleton] at h
      subst h
      rw [hr2] at hi2
      cases hi2
      simp [aggLookup]
  have hrun := runEmitter_success sz g hkall hrall
  have hout1 := pair_fst hrun
  have hcode := pair_snd hrun
  refine ⟨hidem, ?_, ?_, ?_, hcode⟩
  · rw [hout1, rboStructEmits_append, rboStructEmits_append,
      rboStructEmits_append, rboStructEmits_append, hS,
      show rboStructEmits (emitAuthChain g.auths none) = [] from
        proj_authChain_nil _ (fun _ _ _ => rfl) g.auths none,
      show rboStructEmits ((pass2Emissions g (pass1 sz g).rbomap none
          g.policies).map EmitItem.policyStruct) = [] from
        proj_map_policyStruct_nil _ (fun _ => rfl) _,
      show rboStructEmits (match pass2SymAfter none g.policies with
          | some s => [EmitItem.defaultEntryAlias s]
          | none => []) = [] from proj_aliasMatch_nil _ (fun _ => rfl) _]
    simp [rboStructEmits]
  · rw [hout1, rboArrayEmits_append, rboArrayEmits_append,
      rboArrayEmits_append, rboArrayEmits_append, hA,
      show rboArrayEmits (emitAuthChain g.auths none) = [] from
        proj_authChain_nil _ (fun _ _ _ => rfl) g.auths none,
      show rboArrayEmits ((pass2Emissions g (pass1 sz g).rbomap none
          g.policies).map EmitItem.policyStruct) = [] from
        proj_map_policyStruct_nil _ (fun _ => rfl) _,
      show rboArrayEmits (match pass2SymAfter none g.policies with
          | some s => [EmitItem.defaultEntryAlias s]
          | none => []) = [] from proj_aliasMatch_nil _ (fun _ => rfl) _]
    simp [rboArrayEmits]
  · rw [hout1, policyEmits_append, policyEmits_append, policyEmits_append,
      policyEmits_append, policyEmits_pass1,
      show policyEmits (emitAuthChain g.auths none) = [] from
        proj_authChain_nil _ (fun _ _ _ => rfl) g.auths none,
      policyEmits_map_policyStruct,
      show policyEmits (match pass2SymAfter none g.policies with
          | some s => [EmitItem.defaultEntryAlias s]
          | none => []) = [] from proj_aliasMatch_nil _ (fun _ => rfl) _]
    simp only [List.nil_append, List.append_nil]
    rw [show policyEmits [EmitItem.footprintReport
        ((pass1 sz g).est + sz.policy_t * g.policies.length + last_offset)
        sz.voidp] = [] from rfl]
    rw [List.append_nil, pass2Emissions_rboRefs, hBrb, hpols]
    simp [rboRefResolve, hr1, hr2, aggLookup]

theorem intern_idempotent_and_retry_dedup_witness :
    internRbo [⟨5, 0⟩] 1 5 = ([⟨5, 0⟩], 1, 0, false) ∧
    rboStructEmits (runEmitter sampleSizes gDedup).1 = [(0, gDedup.rbo_objs 7)] ∧
    rboArrayEmits (runEmitter sampleSizes gDedup).1 =
      [(0, (gDedup.rbo_objs 7).retry_ms_table)] ∧
    (policyEmits (runEmitter sampleSizes gDedup).1).map (fun e => e.rboRef) =
      [some 0, some 0] ∧
    (runEmitter sampleSizes gDedup).2 = 0 :=
  intern_idempotent_and_retry_dedup [] 0 5 [⟨5, 0⟩] 1 0 true sampleSizes gDedup 7
    pRbo pRbo2 rfl rfl rfl rfl (Or.inl rfl) (Or.inl rfl)

/-! ## Footprint accounting -/

theorem estOf_append (sz : Sizes) (a b : List EmitItem) :
    estOf sz (a ++ b) = estOf sz a + estOf sz b := by
  simp [estOf, List.sum_append]

theorem estOf_mdChain (sz : Sizes) (s : String) (mds : List lws_ss_metadata) :
    ∀ (p : Option String) (n : Nat),
      estOf sz (emitMetadataChain s mds p n) = sz.metadata_t * mds.length := by
  induction mds with
  | nil => intro p n; rfl
  | cons md t ih =>
    intro p n
    show entitySize sz _ + estOf sz (emitMetadataChain s t _ (n + 1)) = _
    rw [ih _ (n + 1)]
    show sz.metadata_t + sz.metadata_t * t.length = sz.metadata_t * (t.length + 1)
    rw [Nat.mul_succ]
    omega

theorem estOf_authChain (sz : Sizes) (l : List lws_ss_auth) :
    ∀ p : Option String, estOf sz (emitAuthChain l p) = 0 := by
  induction l with
  | nil => intro p; rfl
  | cons au t ih =>
    intro p
    show entitySize sz _ + estOf sz (emitAuthChain t _) = 0
    rw [ih _]
    rfl

theorem est_inv_pass1Cert (sz : Sizes) (g : PolicyGraph) (st : EmitState) (c : Nat)
    (h : st.est = estOf sz st.out) :
    (pass1Cert sz g st c).est = estOf sz (pass1Cert sz g st c).out := by
  unfold pass1Cert
  cases hlk : aggLookup st.certmap c with
  | some a => simpa using h
  | none =>
    simp only [estOf_append, h]
    show estOf sz st.out + (g.cert_objs c).ca_der.length + sz.x509_t =
      estOf sz st.out + estOf sz [EmitItem.certDer _ _, EmitItem.certStruct _ _ _ _]
    show _ = estOf sz st.out +
      ((g.cert_objs c).ca_der.length + (sz.x509_t + 0))
    omega

theorem est_inv_foldl_pass1Cert (sz : Sizes) (g : PolicyGraph) (l : List Nat) :
    ∀ st : EmitState, st.est = estOf sz st.out →
      (l.foldl (pass1Cert sz g) st).est = estOf sz (l.foldl (pass1Cert sz g) st).out := by
  induction l with
  | nil => intro st h; exact h
  | cons c t ih =>
    intro st h
    rw [List.foldl_cons]
    exact ih _ (est_inv_pass1Cert sz g st c h)

theorem est_inv_pass1Rbo (sz : Sizes) (g : PolicyGraph) (st : EmitState)
    (pol : lws_ss_policy) (h : st.est = estOf sz st.out) :
    (pass1Rbo sz g st pol).est = estOf sz (pass1Rbo sz g st pol).out := by
  unfold pass1Rbo
  cases pol.retry_bo with
  | none => exact h
  | some id =>
    cases hlk : aggLookup st.rbomap id with
    | some a => simpa [hlk] using h
    | none =>
      simp only [hlk, estOf_append, h]
      show estOf sz st.out + 4 * (g.rbo_objs id).retry_ms_table.length +
          sz.retry_bo_t =
        estOf sz st.out + (4 * (g.rbo_objs id).retry_ms_table.length +
          (sz.retry_bo_t + 0))
      omega

theorem est_inv_pass1Trust (sz : Sizes) (g : PolicyGraph) (st : EmitState)
    (pol : lws_ss_policy) (h : st.est = estOf sz st.out) :
    (pass1Trust sz g st pol).est = estOf sz (pass1Trust sz g st pol).out := by
  unfold pass1Trust
  cases pol.trust_store with
  | none => exact h
  | some sid =>
    cases hlk : aggLookup st.trustmap sid with
    | some a => simpa [hlk] using h
    | none =>
      simp only [hlk]
      have hfd := est_inv_foldl_pass1Cert sz g (g.store_objs sid).ssx509
        { st with trustmap := ⟨sid, 0⟩ :: st.trustmap } (by simpa using h)
      simp only [estOf_append, hfd]
      show _ + sz.trust_store_t = _ + (sz.trust_store_t + 0)
      omega

theorem est_inv_pass1Policy (sz : Sizes) (g : PolicyGraph) (st : EmitState)
    (pol : lws_ss_policy) (h : st.est = estOf sz st.out) :
    (pass1Policy sz g st pol).est = estOf sz (pass1Policy sz g st pol).out := by
  unfold pass1Policy
  apply est_inv_pass1Trust
  apply est_inv_pass1Rbo
  show st.est + sz.metadata_t * pol.metadata.length =
    estOf sz (st.out ++ emitMetadataChain pol.streamtype pol.metadata none 0)
  rw [estOf_append, estOf_mdChain, h]

theorem est_inv_foldl_pass1 (sz : Sizes) (g : PolicyGraph)
    (l : List lws_ss_policy) : ∀ st : EmitState, st.est = estOf sz st.out →
      (l.foldl (pass1Policy sz g) st).est =
        estOf sz (l.foldl (pass1Policy sz g) st).out := by
  induction l with
  | nil => intro st h; exact h
  | cons p t ih =>
    intro st h
    rw [List.foldl_cons]
    exact ih _ (est_inv_pass1Policy sz g st p h)

theorem est_inv_pass1 (sz : Sizes) (g : PolicyGraph) :
    (pass1 sz g).est = estOf sz (pass1 sz g).out :=
  est_inv_foldl_pass1 sz g g.policies initState rfl

theorem pass2Policy_some_shape (sz : Sizes) (g : PolicyGraph)
    (rbomap : List aggstr) (st : Pass2State) (pol : lws_ss_policy)
    (st1 : Pass2State) (h : pass2Policy sz g rbomap st pol = some st1) :
    st1.est = st.est + sz.policy_t ∧
    st1.out = st.out ++
      [EmitItem.policyStruct (pass2Emission g rbomap st.prev pol)] := by
  unfold pass2Policy at h
  cases hpe : protoEmit pol with
  | none =>
    rw [hpe] at h
    cases h
  | some x =>
    obtain ⟨xh, xw, xm⟩ := x
    rw [hpe] at h
    cases hrr : rboRefResolve rbomap pol.retry_bo with
    | none =>
      rw [hrr] at h
      cases h
    | some r =>
      rw [hrr] at h
      cases h
      constructor
      · rfl
      · simp [pass2Emission, hpe, hrr]

theorem est_inv_pass2Go (sz : Sizes) (g : PolicyGraph) (rbomap : List aggstr)
    (l : List lws_ss_policy) : ∀ st : Pass2State, st.est = estOf sz st.out →
      (pass2Go sz g rbomap st l).1.est =
        estOf sz (pass2Go sz g rbomap st l).1.out := by
  induction l with
  | nil => intro st h; exact h
  | cons p t ih =>
    intro st h
    show (match pass2Policy sz g rbomap st p with
          | none => (st, false)
          | some st1 => pass2Go sz g rbomap st1 t).1.est =
      estOf sz (match pass2Policy sz g rbomap st p with
          | none => (st, false)
          | some st1 => pass2Go sz g rbomap st1 t).1.out
    cases hp : pass2Policy sz g rbomap st p with
    | none => exact h
    | some st1 =>
      obtain ⟨h1, h2⟩ := pass2Policy_some_shape sz g rbomap st p st1 hp
      refine ih st1 ?_
      rw [h1, h2, estOf_append, h]
      show _ = _ + (sz.policy_t + 0)
      omega

theorem reportsOf_pass2Go (sz : Sizes) (g : PolicyGraph) (rbomap : List aggstr)
    (l : List lws_ss_policy) : ∀ st : Pass2State,
      reportsOf (pass2Go sz g rbomap st l).1.out = reportsOf st.out := by
  induction l with
  | nil => intro st; rfl
  | cons p t ih =>
    intro st
    show reportsOf (match pass2Policy sz g rbomap st p with
          | none => (st, false)
          | some st1 => pass2Go sz g rbomap st1 t).1.out = reportsOf st.out
    cases hp : pass2Policy sz g rbomap st p with
    | none => rfl
    | some st1 =>
      obtain ⟨h1, h2⟩ := pass2Policy_some_shape sz g rbomap st p st1 hp
      rw [ih st1, h2, reportsOf_append]
      simp [reportsOf, List.filterMap_cons]

theorem estOf_cons (sz : Sizes) (i : EmitItem) (l : List EmitItem) :
    estOf sz (i :: l) = entitySize sz i + estOf sz l := by
  simp [estOf]

theorem estOf_take_le (sz : Sizes) (l : List EmitItem) :
    ∀ n : Nat, estOf sz (l.take n) ≤ estOf sz l := by
  induction l with
  | nil => intro n; simp [estOf]
  | cons i t ih =>
    intro n
    cases n with
    | zero => simp [estOf]
    | succ k =>
      rw [List.take_succ_cons, estOf_cons, estOf_cons]
      have := ih k
      omega

theorem estOf_take_mono (sz : Sizes) (l : List EmitItem) (i j : Nat) (hij : i ≤ j) :
    estOf sz (l.take i) ≤ estOf sz (l.take j) := by
  have h1 : l.take i = (l.take j).take i := by
    rw [List.take_take]
    rw [Nat.min_eq_left hij]
  rw [h1]
  exact estOf_take_le sz (l.take j) i

theorem estOf_aliasMatch (sz : Sizes) (o : Option String) :
    estOf sz (match o with
      | some s => [EmitItem.defaultEntryAlias s]
      | none => ([] : List EmitItem)) = 0 := by
  cases o <;> rfl

/-- C9: the running footprint estimate satisfies `est = estOf out` after every
pass-1 policy step (purely additive bookkeeping), the footprint of any output
prefix is monotonically non-decreasing, and on a successful run the estimate
is reported exactly once, as the final item, together with the assumed
pointer width, and its value equals the summed sizes of all emitted
entities. -/
theorem footprint_monotone_and_additive (sz : Sizes) (g : PolicyGraph)
    (k i j : Nat) (hij : i ≤ j) (hcode : (runEmitter sz g).2 = 0) :
    ((g.policies.take k).foldl (pass1Policy sz g) initState).est =
      estOf sz ((g.policies.take k).foldl (pass1Policy sz g) initState).out ∧
    estOf sz ((runEmitter sz g).1.take i) ≤
      estOf sz ((runEmitter sz g).1.take j) ∧
    reportsOf (runEmitter sz g).1 = [(estOf sz (runEmitter sz g).1, sz.voidp)] ∧
    (runEmitter sz g).1.getLast? =
      some (EmitItem.footprintReport (estOf sz (runEmitter sz g).1) sz.voidp) := by
  refine ⟨est_inv_foldl_pass1 sz g _ initState rfl,
    estOf_take_mono sz _ i j hij, ?_⟩
  rcases hgo : pass2Go sz g (pass1 sz g).rbomap (pass2Init sz g) g.policies
    with ⟨stF, ok⟩
  cases ok with
  | false =>
    have hbad := pair_snd (runEmitter_fail sz g stF hgo)
    rw [hcode] at hbad
    cases hbad
  | true =>
    have hrune := runEmitter_ok sz g stF hgo
    have hout := pair_fst hrune
    have hinit : (pass2Init sz g).est = estOf sz (pass2Init sz g).out := by
      show (pass1 sz g).est =
        estOf sz ((pass1 sz g).out ++ emitAuthChain g.auths none)
      rw [estOf_append, estOf_authChain, Nat.add_zero]
      exact est_inv_pass1 sz g
    have hestF : stF.est = estOf sz stF.out := by
      have hh := est_inv_pass2Go sz g (pass1 sz g).rbomap g.policies
        (pass2Init sz g) hinit
      rw [hgo] at hh
      exact hh
    have hrep : reportsOf stF.out = [] := by
      have hh := reportsOf_pass2Go sz g (pass1 sz g).rbomap g.policies
        (pass2Init sz g)
      rw [hgo] at hh
      rw [hh]
      show reportsOf ((pass1 sz g).out ++ emitAuthChain g.auths none) = []
      rw [reportsOf_append, reportsOf_pass1,
        show reportsOf (emitAuthChain g.auths none) = [] from
          proj_authChain_nil _ (fun _ _ _ => rfl) g.auths none]
      rfl
    have hval : estOf sz (runEmitter sz g).1 = stF.est + last_offset := by
      rw [hout, estOf_append, estOf_append, estOf_aliasMatch, hestF]
      show estOf sz stF.out + 0 + (0 + 0) = estOf sz stF.out + last_offset
      rfl
    constructor
    · rw [hval, hout, reportsOf_append, reportsOf_append, hrep,
        show reportsOf (match stF.lastSym with
          | some s => [EmitItem.defaultEntryAlias s]
          | none => []) = [] from proj_aliasMatch_nil _ (fun _ => rfl) _]
      rfl
    · rw [hval, hout]
      exact List.getLast?_concat _

theorem footprint_monotone_and_additive_witness :
    ((gRbo.policies.take 1).foldl (pass1Policy sampleSizes gRbo) initState).est =
      estOf sampleSizes
        ((gRbo.policies.take 1).foldl (pass1Policy sampleSizes gRbo) initState).out ∧
    estOf sampleSizes ((runEmitter sampleSizes gRbo).1.take 1) ≤
      estOf sampleSizes ((runEmitter sampleSizes gRbo).1.take 3) ∧
    reportsOf (runEmitter sampleSizes gRbo).1 =
      [(estOf sampleSizes (runEmitter sampleSizes gRbo).1, sampleSizes.voidp)] ∧
    (runEmitter sampleSizes gRbo).1.getLast? =
      some (EmitItem.footprintReport
        (estOf sampleSizes (runEmitter sampleSizes gRbo).1) sampleSizes.voidp) :=
  footprint_monotone_and_additive sampleSizes gRbo 1 1 3 (by omega) (by decide)

/-! ## The auth reference of pass 2 -/

/-- C8 counterexample: a policy node whose auth name matches no auth record at
all (the auth list is empty, so no auth record is ever emitted) still runs to
a successful exit (code 0) and emits a top-level struct whose `.auth`
reference names the never-declared symbol `_ssau_X` — the run does not fail
fatally on an unresolvable auth record. -/
theorem auth_ref_unchecked_counterexample :
    (runEmitter sampleSizes gAuth).2 = 0 ∧
    authSymbols (runEmitter sampleSizes gAuth).1 = [] ∧
    (policyEmits (runEmitter sampleSizes gAuth).1).map (fun e => e.authRef) =
      [some "_ssau_X"] := by
  refine ⟨by decide, by decide, by decide⟩

/-- C8 amended: for every policy node carrying an auth reference, pass 2 emits
an address-of reference built from the node's auth name
(`&_ssau_<purified name>`), without any attempt to resolve it against the
emitted auth records: the iteration succeeds whether or not a matching auth
record exists (no fatal path exists for an unresolvable auth reference). -/
theorem auth_ref_emitted_unchecked (sz : Sizes) (g : PolicyGraph)
    (rbomap : List aggstr) (st : Pass2State) (pol : lws_ss_policy) (nm : String)
    (hauth : pol.auth = some nm) (hk : knownProtocol pol.protocol)
    (hrbo : pol.retry_bo = none) :
    pass2Policy sz g rbomap st pol ≠ none ∧
    policyEmits ((pass2Policy sz g rbomap st pol).getD st).out =
      policyEmits st.out ++ [pass2Emission g rbomap st.prev pol] ∧
    (pass2Emission g rbomap st.prev pol).authRef = some (ssauSymbol nm) := by
  have hu : protoEmit pol ≠ none := by
    rw [ne_eq, protoEmit_none_iff, not_not]
    exact hk
  have hrr : rboRefResolve rbomap pol.retry_bo ≠ none := by
    rw [hrbo]
    simp [rboRefResolve]
  have heq := pass2Policy_eq sz g rbomap st pol hu hrr
  refine ⟨by rw [heq]; simp, ?_, ?_⟩
  · rw [heq]
    show policyEmits (st.out ++ [EmitItem.policyStruct _]) = _
    rw [policyEmits_append]
    rfl
  · simp [pass2Emission, hauth]

theorem auth_ref_emitted_unchecked_witness :
    pass2Policy sampleSizes gAuth [] stP2 pAuth ≠ none ∧
    policyEmits ((pass2Policy sampleSizes gAuth [] stP2 pAuth).getD stP2).out =
      policyEmits stP2.out ++ [pass2Emission gAuth [] stP2.prev pAuth] ∧
    (pass2Emission gAuth [] stP2.prev pAuth).authRef = some (ssauSymbol "X") :=
  auth_ref_emitted_unchecked sampleSizes gAuth [] stP2 pAuth "X" rfl
    (Or.inl rfl) rfl

/-! ## Walking the emitted metadata back-reference chain -/

theorem mdLinks_chain (stream : String) (mds : List lws_ss_metadata) :
    ∀ (prev : Option String) (idx : Nat),
      mdLinks (emitMetadataChain stream mds prev idx) =
        backChain prev (mds.map fun m => mdSymbol stream m.name) := by
  induction mds with
  | nil => intro prev idx; rfl
  | cons md t ih =>
    intro prev idx
    show mdLinks (EmitItem.mdRecord (mdSymbol stream md.name) prev md.name
        md.value idx :: emitMetadataChain stream t _ (idx + 1)) = _
    unfold mdLinks
    rw [List.filterMap_cons]
    show (mdSymbol stream md.name, prev) ::
        mdLinks (emitMetadataChain stream t _ (idx + 1)) = _
    rw [ih _ (idx + 1)]
    rfl

theorem backChain_keys (l : List String) :
    ∀ p : Option String, (backChain p l).map Prod.fst = l := by
  induction l with
  | nil => intro p; rfl
  | cons s t ih =>
    intro p
    show s :: (backChain (some s) t).map Prod.fst = s :: t
    rw [ih (some s)]

theorem backChain_concat (l : List String) (a : String) :
    ∀ p : Option String,
      backChain p (l ++ [a]) = backChain p l ++ [(a, lastPrev p l)] := by
  induction l with
  | nil => intro p; rfl
  | cons s t ih =>
    intro p
    show (s, p) :: backChain (some s) (t ++ [a]) = _
    rw [ih (some s)]
    have hlp : lastPrev (some s) t = lastPrev p (s :: t) := by
      cases t with
      | nil => rfl
      | cons b t2 =>
        unfold lastPrev
        rw [List.getLast?_cons_cons]
        cases h : (b :: t2).getLast? with
        | some x => rfl
        | none => exact absurd h (by simp)
    rw [hlp]
    rfl

theorem lastPrev_none (l : List String) : lastPrev none l = l.getLast? := by
  cases h : l.getLast? <;> simp [lastPrev, h]

theorem lookupNext_append_right (c1 c2 : List (String × Option String)) (q : String)
    (h : q ∉ c1.map Prod.fst) : lookupNext (c1 ++ c2) q = lookupNext c2 q := by
  induction c1 with
  | nil => rfl
  | cons x t ih =>
    obtain ⟨s, n⟩ := x
    simp only [List.map_cons, List.mem_cons, not_or] at h
    obtain ⟨h1, h2⟩ := h
    rw [List.cons_append]
    show (if s = q then some n else lookupNext (t ++ c2) q) = _
    rw [if_neg (fun he => h1 he.symm), ih h2]

theorem walkBack_backChain (syms : List String) :
    syms.Nodup →
    ∀ extra : List (String × Option String),
      (∀ s ∈ syms, s ∉ extra.map Prod.fst) →
      walkBack (backChain none syms ++ extra) syms.length syms.getLast? =
        syms.reverse := by
  induction syms using List.reverseRecOn with
  | nil => intro _ extra _; rfl
  | append_singleton l a ih =>
    intro hnd extra hdisj
    obtain ⟨hndl, _, hdisj2⟩ := List.nodup_append.mp hnd
    have hal : a ∉ l := fun hx => hdisj2 hx (List.mem_singleton_self a)
    rw [backChain_concat l a none, List.append_assoc, List.getLast?_concat]
    have hlen : (l ++ [a]).length = l.length + 1 := by simp
    rw [hlen]
    have hlook : lookupNext (backChain none l ++
        ((a, lastPrev none l) :: extra)) a = some (lastPrev none l) := by
      rw [lookupNext_append_right _ _ a (by rw [backChain_keys l none]; exact hal)]
      show (if a = a then some (lastPrev none l) else _) = _
      rw [if_pos rfl]
    show (match lookupNext (backChain none l ++ ((a, lastPrev none l) :: extra)) a
          with
          | none => []
          | some nxt =>
            a :: walkBack (backChain none l ++ ((a, lastPrev none l) :: extra))
              l.length nxt) = (l ++ [a]).reverse
    rw [hlook]
    show a :: walkBack (backChain none l ++ (a, lastPrev none l) :: extra)
        l.length (lastPrev none l) = (l ++ [a]).reverse
    rw [lastPrev_none]
    have hdisj3 : ∀ s ∈ l, s ∉ ((a, l.getLast?) :: extra).map Prod.fst := by
      intro s hs
      simp only [List.map_cons, List.mem_cons, not_or]
      exact ⟨fun he => hal (he ▸ hs), hdisj s (List.mem_append_left _ hs)⟩
    rw [ih hndl ((a, l.getLast?) :: extra) hdisj3]
    simp

theorem lastOfAux_getLast {α : Type} (l : List α) :
    ∀ x : α, lastOfAux (some x) l = (x :: l).getLast? := by
  induction l with
  | nil => intro x; rfl
  | cons b t ih =>
    intro x
    show lastOfAux (some b) t = (x :: b :: t).getLast?
    rw [ih b, List.getLast?_cons_cons]

theorem lastOf_eq_getLast {α : Type} (l : List α) : lastOf l = l.getLast? := by
  cases l with
  | nil => rfl
  | cons x t => exact lastOfAux_getLast t x

/-- C1: pass 1 emits the metadata records in source order with each record's
`next` pointing at the previously emitted record (the first record has no
`next`), and pass 2 references the tail record (the last of the source list).
Walking the emitted chain from that tail follows the back-references through
Mk, …, M0, and reversing that walk reconstructs exactly the source traversal
order M0→M1→…→Mk — the emitter reproduces the source link order as
back-references rather than re-linking the records in a different order. -/
theorem metadata_chain_reconstructs_order (stream : String)
    (mds : List lws_ss_metadata) (g : PolicyGraph) (rbomap : List aggstr)
    (prev : Option String) (pol : lws_ss_policy)
    (hnd : (mds.map fun m => mdSymbol stream m.name).Nodup)
    (hm : pol.metadata = mds) (hs : pol.streamtype = stream) :
    mdLinks (emitMetadataChain stream mds none 0) =
      backChain none (mds.map fun m => mdSymbol stream m.name) ∧
    (pass2Emission g rbomap prev pol).metadataRef =
      (mds.map fun m => mdSymbol stream m.name).getLast? ∧
    walkBack (mdLinks (emitMetadataChain stream mds none 0)) mds.length
        ((mds.map fun m => mdSymbol stream m.name).getLast?) =
      (mds.map fun m => mdSymbol stream m.name).reverse ∧
    (walkBack (mdLinks (emitMetadataChain stream mds none 0)) mds.length
        ((mds.map fun m => mdSymbol stream m.name).getLast?)).reverse =
      mds.map fun m => mdSymbol stream m.name := by
  have h1 := mdLinks_chain stream mds none 0
  have hwalk : walkBack
      (backChain none (mds.map fun m => mdSymbol stream m.name))
      (mds.map fun m => mdSymbol stream m.name).length
      ((mds.map fun m => mdSymbol stream m.name).getLast?) =
      (mds.map fun m => mdSymbol stream m.name).reverse := by
    have hb := walkBack_backChain (mds.map fun m => mdSymbol stream m.name) hnd
      [] (by simp)
    rwa [List.append_nil] at hb
  rw [List.length_map] at hwalk
  refine ⟨h1, ?_, ?_, ?_⟩
  · simp only [pass2Emission]
    rw [hm, hs, lastOf_eq_getLast]
    exact (List.getLast?_map _ mds).symm
  · rw [h1]
    exact hwalk
  · rw [h1, hwalk]
    simp

theorem metadata_chain_reconstructs_order_witness :
    mdLinks (emitMetadataChain "s" mds1 none 0) =
      backChain none (mds1.map fun m => mdSymbol "s" m.name) ∧
    (pass2Emission gAuth [] none pMd).metadataRef =
      (mds1.map fun m => mdSymbol "s" m.name).getLast? ∧
    walkBack (mdLinks (emitMetadataChain "s" mds1 none 0)) mds1.length
        ((mds1.map fun m => mdSymbol "s" m.name).getLast?) =
      (mds1.map fun m => mdSymbol "s" m.name).reverse ∧
    (walkBack (mdLinks (emitMetadataChain "s" mds1 none 0)) mds1.length
        ((mds1.map fun m => mdSymbol "s" m.name).getLast?)).reverse =
      mds1.map fun m => mdSymbol "s" m.name :=
  metadata_chain_reconstructs_order "s" mds1 gAuth [] none pMd (by decide) rfl rfl

end Policy2c
